import Mathlib

set_option maxHeartbeats 1000000

/-!
Verification development for the phases-of-play analysis pipeline
(`enrich_pop_file.py`, `PhaseOfPlayAggregator.py`,
`get_phase_of_play_aggregates.py`).

The dataframe rows and the operations on them are shallowly embedded:
a phase row becomes a `Phase` structure, the pandas sorting / dict
lookup / merge steps become explicit list functions, and integer
columns become `Nat`/`Int` (pandas nullable cells become `Option`).
-/

/-- A row of the phases-of-play table.  The `tip`/`toop` prefixes stand
for the source's `team_in_possession_*` / `team_out_of_possession_*`
column families.  `toopId`, `toopName` are derived (nullable in batch
mode), `tipNext`/`toopNext` are the two columns written by
`_add_next_phase` (null before that stage runs). -/
structure Phase where
  matchId : Nat
  idx : Nat
  frameStart : Nat
  frameEnd : Nat
  tipId : Nat
  tipName : String
  tipPt : String
  toopPt : String
  toopId : Option Nat := none
  toopName : Option String := none
  tipNext : Option String := none
  toopNext : Option String := none
deriving DecidableEq

/-- The sentinel written for a missing next phase
(`"no_next_phase"` in both source files). -/
def noNextPhase : String := "no_next_phase"

/-- Pandas scalar equality on nullable values: `NaN == x` is `False`,
also when both sides are `NaN`. -/
def pandasEqN : Option Nat → Option Nat → Bool
  | some a, some b => a == b
  | _, _ => false

/-- Stable insertion into a list sorted by the strict comparator `lt`:
the new element passes over `b` only when `lt b a`. -/
def insOrd (lt : α → α → Bool) (a : α) : List α → List α
  | [] => [a]
  | b :: l => if lt b a then b :: insOrd lt a l else a :: b :: l

/-- Stable sort by the strict comparator `lt`, modelling
`DataFrame.sort_values` (ties keep their input order). -/
def sortOrd (lt : α → α → Bool) : List α → List α
  | [] => []
  | a :: l => insOrd lt a (sortOrd lt l)

theorem mem_insOrd (lt : α → α → Bool) (a x : α) (l : List α) :
    x ∈ insOrd lt a l ↔ x = a ∨ x ∈ l := by
  induction l with
  | nil => simp [insOrd]
  | cons b t ih =>
    by_cases h : lt b a = true
    · simp only [insOrd, h, if_true, List.mem_cons, ih]
      tauto
    · simp only [insOrd]
      rw [if_neg h]
      simp only [List.mem_cons]

theorem mem_sortOrd (lt : α → α → Bool) (x : α) (l : List α) :
    x ∈ sortOrd lt l ↔ x ∈ l := by
  induction l with
  | nil => simp [sortOrd]
  | cons a t ih => simp [sortOrd, mem_insOrd, ih]

theorem length_insOrd (lt : α → α → Bool) (a : α) (l : List α) :
    (insOrd lt a l).length = l.length + 1 := by
  induction l with
  | nil => simp [insOrd]
  | cons b t ih =>
    by_cases h : lt b a <;> simp [insOrd, h, ih]

theorem length_sortOrd (lt : α → α → Bool) (l : List α) :
    (sortOrd lt l).length = l.length := by
  induction l with
  | nil => simp [sortOrd]
  | cons a t ih => simp [sortOrd, length_insOrd, ih]

theorem pairwise_insOrd (lt : α → α → Bool)
    (hasym : ∀ x y, lt x y = true → lt y x = false)
    (htr : ∀ x y z, lt y x = false → lt z y = false → lt z x = false)
    (a : α) (l : List α) (h : l.Pairwise (fun x y => lt y x = false)) :
    (insOrd lt a l).Pairwise (fun x y => lt y x = false) := by
  induction l with
  | nil => simp [insOrd]
  | cons b t ih =>
    rcases h with _ | ⟨hb, ht⟩
    by_cases hba : lt b a = true
    · have hrec : (insOrd lt a t).Pairwise (fun x y => lt y x = false) := ih ht
      simp only [insOrd, hba, if_true]
      refine List.Pairwise.cons ?_ hrec
      intro x hx
      rcases (mem_insOrd lt a x t).1 hx with rfl | hxt
      · exact hasym _ _ hba
      · exact hb x hxt
    · simp only [insOrd]
      rw [if_neg hba]
      refine List.Pairwise.cons ?_ (List.Pairwise.cons hb ht)
      intro x hx
      rcases List.mem_cons.1 hx with rfl | hxt
      · exact Bool.of_not_eq_true hba
      · exact htr a b x (Bool.of_not_eq_true hba) (hb x hxt)

theorem pairwise_sortOrd (lt : α → α → Bool)
    (hasym : ∀ x y, lt x y = true → lt y x = false)
    (htr : ∀ x y z, lt y x = false → lt z y = false → lt z x = false)
    (l : List α) :
    (sortOrd lt l).Pairwise (fun x y => lt y x = false) := by
  induction l with
  | nil => simp [sortOrd]
  | cons a t ih => exact pairwise_insOrd lt hasym htr a (sortOrd lt t) ih

/-- Comparator for `PhasesEnricherSplitter._add_next_phase`:
`sort_values(by=["frame_start"])`. -/
def ltFS (a b : Phase) : Bool := a.frameStart < b.frameStart

/-- Comparator for `PhasesOfPlayAggregator._add_next_phase`:
`sort_values(by=["match_id", "frame_start"])`. -/
def ltMFS (a b : Phase) : Bool :=
  a.matchId < b.matchId || (a.matchId == b.matchId && a.frameStart < b.frameStart)

/-- The splitter's successor lookup
`frame_start_to_index = {phases.loc[i, "frame_start"]: i for i in range(len)}`:
a Python dict comprehension keeps the LAST write, so a duplicated
`frame_start` resolves to the greatest row position. -/
def lookupLast (l : List Phase) (fe : Nat) : Option Nat :=
  ((List.range l.length).filter
    (fun i => decide ((l[i]?).map Phase.frameStart = some fe))).getLast?

/-- Body of the splitter's `for i in range(len(phases) - 1)` loop for the
row at sorted position `i` (out of `n` rows), including the final
`fillna`-style replacement of unset next-phase cells by the sentinel. -/
def stepSplit (s : List Phase) (n i : Nat) (r : Phase) : Phase :=
  if i + 1 < n then
    match lookupLast s r.frameEnd with
    | some j =>
      match s[j]? with
      | some nx =>
        { r with
          tipNext := some (if r.tipId = nx.tipId then nx.tipPt else nx.toopPt),
          toopNext := some (if pandasEqN r.toopId nx.toopId then nx.toopPt else nx.tipPt) }
      | none => { r with tipNext := some noNextPhase, toopNext := some noNextPhase }
    | none => { r with tipNext := some noNextPhase, toopNext := some noNextPhase }
  else { r with tipNext := some noNextPhase, toopNext := some noNextPhase }

/-- Apply `stepSplit` to each row, tracking the row position `i`. -/
def nextRows (s : List Phase) (n : Nat) : Nat → List Phase → List Phase
  | _, [] => []
  | i, r :: rest => stepSplit s n i r :: nextRows s n (i + 1) rest

/-- `PhasesEnricherSplitter._add_next_phase`
(`src/enrich_pop_file.py` lines 126-158): sort by `frame_start`, link
each row except the last to the row whose `frame_start` equals its
`frame_end` via the last-write-wins dict, fill the rest with the
sentinel. -/
def addNextPhaseSplit (rows : List Phase) : List Phase :=
  let s := sortOrd ltFS rows
  nextRows s s.length 0 s

/-- The aggregator's successor lookup: `next_df` sorted by
`(match_id, frame_start)` with duplicates dropped keeping the first,
then left-merged on `frame_end == frame_start_next`; the composite
selects the first row of the sorted frame with the wanted key. -/
def aggFindNext (s : List Phase) (m fe : Nat) : Option Phase :=
  s.find? (fun r => decide (r.matchId = m ∧ r.frameStart = fe))

/-- `PhasesOfPlayAggregator._add_next_phase`
(`src/PhaseOfPlayAggregator.py` lines 68-127): sort by
`(match_id, frame_start)`, left-merge with the deduplicated successor
frame, and fill the two next-phase columns with `np.where`, using the
sentinel whenever the looked-up id is missing (`isna`).
`stepAgg` is the per-row `np.where` logic. -/
def stepAgg (s : List Phase) (r : Phase) : Phase :=
  match aggFindNext s r.matchId r.frameEnd with
  | none => { r with tipNext := some noNextPhase, toopNext := some noNextPhase }
  | some nx =>
    { r with
      tipNext := some (if r.tipId = nx.tipId then nx.tipPt else nx.toopPt),
      toopNext := some (match nx.toopId with
        | none => noNextPhase
        | some ob => if pandasEqN r.toopId (some ob) then nx.toopPt else nx.tipPt) }

def addNextPhaseAgg (rows : List Phase) : List Phase :=
  let s := sortOrd ltMFS rows
  s.map (stepAgg s)

/-- First-occurrence deduplication, the semantics of
`pandas.Series.unique` / `DataFrame.drop_duplicates(keep="first")`. -/
def uniqueFirst [DecidableEq α] : List α → List α
  | [] => []
  | a :: l => a :: (uniqueFirst l).filter (fun b => decide (b ≠ a))

/-- The phases table as the splitter sees it: its rows plus whether the
two `team_out_of_possession_*` columns are already present (the guard
at the top of `_add_team_out_of_possession_info`). -/
structure SplitterTable where
  rows : List Phase
  hasOopCols : Bool
deriving DecidableEq

/-- `PhasesEnricherSplitter._add_team_out_of_possession_info`
(`src/enrich_pop_file.py` lines 102-121): no-op when the columns are
present; otherwise require exactly two distinct in-possession team ids
and names and map each to the other, or raise. -/
def addOopSplit (t : SplitterTable) : Except String SplitterTable :=
  if t.hasOopCols then .ok t
  else
    match uniqueFirst (t.rows.map Phase.tipId),
          uniqueFirst (t.rows.map Phase.tipName) with
    | [i1, i2], [n1, n2] =>
      .ok { rows := t.rows.map (fun r =>
              { r with
                toopId := if r.tipId = i1 then some i2
                          else if r.tipId = i2 then some i1 else none,
                toopName := if r.tipName = n1 then some n2
                            else if r.tipName = n2 then some n1 else none }),
            hasOopCols := true }
    | _, _ => .error "Expected exactly 2 teams in phases_df to map out-of-possession team info."

/-- Distinct `(team_in_possession_id, team_in_possession_shortname)`
pairs of one match, in first-occurrence order (the aggregator's
`drop_duplicates` over `(match_id, team_id, team_shortname)` restricted
to that match). -/
def matchTeams (rows : List Phase) (m : Nat) : List (Nat × String) :=
  uniqueFirst ((rows.filter (fun r => decide (r.matchId = m))).map
    (fun r => (r.tipId, r.tipName)))

/-- The aggregator's opponent choice for team `t` of match `m`: among
the other teams of the match, the one with the smallest id (the
`sort_values(["match_id","team_id","team_id_opp"])` followed by
`drop_duplicates(keep="first")`). -/
def aggOpp (rows : List Phase) (m t : Nat) : Option (Nat × String) :=
  (sortOrd (fun a b => a.1 < b.1)
    ((matchTeams rows m).filter (fun p => decide (p.1 ≠ t)))).head?

/-- Per-row reindex step of
`PhasesOfPlayAggregator._add_team_out_of_possession_info`
(`src/PhaseOfPlayAggregator.py` lines 17-66): per-match opponent
mapping, `NaN` (here `none`) when no other team exists in the match.
`addOopAgg` applies it to every row of the batch. -/
def oopAssign (rows : List Phase) (r : Phase) : Phase :=
  match aggOpp rows r.matchId r.tipId with
  | some p => { r with toopId := some p.1, toopName := some p.2 }
  | none => { r with toopId := none, toopName := none }

def addOopAgg (rows : List Phase) : List Phase :=
  rows.map (oopAssign rows)

/-- The splitter pipeline prefix relevant to phase linking:
`_add_team_out_of_possession_info` then `_add_next_phase`
(`PhasesEnricherSplitter.__init__`). -/
def pipelineSplit (rows : List Phase) : Except String (List Phase) :=
  (addOopSplit { rows := rows, hasOopCols := false }).map
    (fun t => addNextPhaseSplit t.rows)

/-- The aggregator pipeline:
`_add_team_out_of_possession_info` then `_add_next_phase`
(`PhasesOfPlayAggregator.__init__`). -/
def pipelineAgg (rows : List Phase) : List Phase :=
  addNextPhaseAgg (addOopAgg rows)

theorem length_nextRows (s : List Phase) (n : Nat) :
    ∀ (i : Nat) (l : List Phase), (nextRows s n i l).length = l.length := by
  intro i l
  induction l generalizing i with
  | nil => simp [nextRows]
  | cons r rest ih => simp [nextRows, ih]

theorem nextRows_getElem? (s : List Phase) (n : Nat) :
    ∀ (i k : Nat) (l : List Phase),
      (nextRows s n i l)[k]? = (l[k]?).map (stepSplit s n (i + k)) := by
  intro i k l
  induction l generalizing i k with
  | nil => simp [nextRows]
  | cons r rest ih =>
    cases k with
    | zero => simp [nextRows]
    | succ k =>
      simp only [nextRows, List.getElem?_cons_succ, ih (i + 1) k]
      have : i + 1 + k = i + (k + 1) := by omega
      rw [this]

theorem getLast?_max_of_pairwise_lt (l : List Nat) (hp : l.Pairwise (· < ·))
    (j : Nat) (hj : l.getLast? = some j) : ∀ x ∈ l, x ≤ j := by
  induction l with
  | nil => simp at hj
  | cons a t ih =>
    rcases hp with _ | ⟨ha, ht⟩
    cases t with
    | nil =>
      simp only [List.getLast?_singleton, Option.some.injEq] at hj
      subst hj
      simp
    | cons b u =>
      rw [List.getLast?_cons_cons] at hj
      intro x hx
      rcases List.mem_cons.1 hx with rfl | hxt
      · have hjm : j ∈ b :: u := List.mem_of_mem_getLast? hj
        exact Nat.le_of_lt (ha j hjm)
      · exact ih ht hj x hxt

theorem getLast?_eq_of_max (l : List Nat) (hp : l.Pairwise (· < ·)) (j : Nat)
    (hjm : j ∈ l) (hmax : ∀ x ∈ l, x ≤ j) : l.getLast? = some j := by
  induction l with
  | nil => simp at hjm
  | cons a t ih =>
    rcases hp with _ | ⟨ha, ht⟩
    cases t with
    | nil =>
      rcases List.mem_singleton.1 hjm with rfl
      simp [List.getLast?_singleton]
    | cons b u =>
      rw [List.getLast?_cons_cons]
      rcases List.mem_cons.1 hjm with rfl | hjt
      · have hb : b ≤ j := hmax b (by simp)
        have : j < b := ha b (by simp)
        omega
      · exact ih ht hjt (fun x hx => hmax x (List.mem_cons_of_mem a hx))

theorem pairwise_lt_filter_range (p : Nat → Bool) (n : Nat) :
    ((List.range n).filter p).Pairwise (· < ·) :=
  List.Pairwise.filter p (List.pairwise_lt_range n)

theorem lookupLast_mem (l : List Phase) (fe j : Nat)
    (h : lookupLast l fe = some j) :
    j < l.length ∧ (l[j]?).map Phase.frameStart = some fe := by
  have hjm : j ∈ (List.range l.length).filter
      (fun i => decide ((l[i]?).map Phase.frameStart = some fe)) :=
    List.mem_of_mem_getLast? h
  have h1 := List.mem_filter.1 hjm
  refine ⟨List.mem_range.1 h1.1, of_decide_eq_true h1.2⟩

theorem lookupLast_max (l : List Phase) (fe j : Nat)
    (h : lookupLast l fe = some j) :
    ∀ k, k < l.length → (l[k]?).map Phase.frameStart = some fe → k ≤ j := by
  intro k hk hfe
  have hkm : k ∈ (List.range l.length).filter
      (fun i => decide ((l[i]?).map Phase.frameStart = some fe)) :=
    List.mem_filter.2 ⟨List.mem_range.2 hk, decide_eq_true hfe⟩
  exact getLast?_max_of_pairwise_lt _ (pairwise_lt_filter_range _ _) j h k hkm

theorem lookupLast_eq_some_iff (l : List Phase) (fe j : Nat) :
    lookupLast l fe = some j ↔
      (j < l.length ∧ (l[j]?).map Phase.frameStart = some fe ∧
        ∀ k, k < l.length → (l[k]?).map Phase.frameStart = some fe → k ≤ j) := by
  constructor
  · intro h
    obtain ⟨h1, h2⟩ := lookupLast_mem l fe j h
    exact ⟨h1, h2, lookupLast_max l fe j h⟩
  · rintro ⟨h1, h2, h3⟩
    refine getLast?_eq_of_max _ (pairwise_lt_filter_range _ _) j ?_ ?_
    · exact List.mem_filter.2 ⟨List.mem_range.2 h1, decide_eq_true h2⟩
    · intro x hx
      have hcomp := List.mem_filter.1 hx
      exact h3 x (List.mem_range.1 hcomp.1) (of_decide_eq_true hcomp.2)

theorem lookupLast_eq_none_iff (l : List Phase) (fe : Nat) :
    lookupLast l fe = none ↔
      ∀ k, k < l.length → (l[k]?).map Phase.frameStart ≠ some fe := by
  unfold lookupLast
  rw [List.getLast?_eq_none_iff, List.filter_eq_nil_iff]
  constructor
  · intro h k hk hfe
    exact absurd (decide_eq_true hfe) (by simpa using h k (List.mem_range.2 hk))
  · intro h i hi
    simp only [decide_eq_true_eq]
    exact h i (List.mem_range.1 hi)

theorem find?_eq_some_of_first {p : α → Bool} {l : List α} {i : Nat} {a : α}
    (hi : l[i]? = some a) (hp : p a = true)
    (hfirst : ∀ k (b : α), k < i → l[k]? = some b → p b = false) :
    l.find? p = some a := by
  induction l generalizing i with
  | nil => simp at hi
  | cons x t ih =>
    cases i with
    | zero =>
      simp only [List.getElem?_cons_zero, Option.some.injEq] at hi
      subst hi
      simp [List.find?_cons, hp]
    | succ i =>
      have hx : p x = false := hfirst 0 x (Nat.succ_pos i) (by simp)
      simp only [List.getElem?_cons_succ] at hi
      rw [List.find?_cons, hx]
      exact ih hi (fun k b hk hkb => hfirst (k + 1) b (by omega) (by simpa using hkb))

theorem stepSplit_matchId (s : List Phase) (n i : Nat) (r : Phase) :
    (stepSplit s n i r).matchId = r.matchId := by
  unfold stepSplit
  split <;> (try split) <;> (try split) <;> rfl

theorem stepSplit_frameStart (s : List Phase) (n i : Nat) (r : Phase) :
    (stepSplit s n i r).frameStart = r.frameStart := by
  unfold stepSplit
  split <;> (try split) <;> (try split) <;> rfl

theorem stepSplit_frameEnd (s : List Phase) (n i : Nat) (r : Phase) :
    (stepSplit s n i r).frameEnd = r.frameEnd := by
  unfold stepSplit
  split <;> (try split) <;> (try split) <;> rfl

theorem ltFS_asym (x y : Phase) (h : ltFS x y = true) : ltFS y x = false := by
  simp only [ltFS, decide_eq_true_eq] at h
  simp only [ltFS, decide_eq_false_iff_not]
  omega

theorem ltFS_trans (x y z : Phase) (h1 : ltFS y x = false) (h2 : ltFS z y = false) :
    ltFS z x = false := by
  simp only [ltFS, decide_eq_false_iff_not] at h1 h2 ⊢
  omega

theorem ltMFS_asym (x y : Phase) (h : ltMFS x y = true) : ltMFS y x = false := by
  simp only [ltMFS, Bool.or_eq_true, Bool.and_eq_true, decide_eq_true_eq,
    beq_iff_eq] at h
  simp only [ltMFS, Bool.or_eq_false_iff, Bool.and_eq_false_iff,
    decide_eq_false_iff_not, beq_eq_false_iff_ne, ne_eq]
  omega

theorem ltMFS_trans (x y z : Phase) (h1 : ltMFS y x = false) (h2 : ltMFS z y = false) :
    ltMFS z x = false := by
  simp only [ltMFS, Bool.or_eq_false_iff, Bool.and_eq_false_iff,
    decide_eq_false_iff_not, beq_eq_false_iff_ne, ne_eq] at h1 h2 ⊢
  omega

theorem sorted_fs_le (s : List Phase)
    (hp : s.Pairwise (fun x y => ltFS y x = false)) (i j : Nat)
    (hi : i < s.length) (hj : j < s.length) (hij : i < j) :
    s[i].frameStart ≤ s[j].frameStart := by
  have := List.pairwise_iff_getElem.1 hp i j hi hj hij
  simp only [ltFS, decide_eq_false_iff_not] at this
  omega

/-- Row 0 for the C1 counterexample: a zero-length phase
(`frame_start == frame_end == 0`). -/
def c1P0 : Phase :=
  { matchId := 1, idx := 0, frameStart := 0, frameEnd := 0, tipId := 10,
    tipName := "a", tipPt := "build_up", toopPt := "high_block",
    toopId := some 20, toopName := some "b" }

/-- Row 1 for the C1 counterexample. -/
def c1P1 : Phase :=
  { matchId := 1, idx := 1, frameStart := 100, frameEnd := 200, tipId := 20,
    tipName := "b", tipPt := "create", toopPt := "mid_block",
    toopId := some 10, toopName := some "a" }

/-- C1 counterexample input: one match, two phases, the first of
length zero. -/
def c1Rows : List Phase := [c1P0, c1P1]

/-- C1 is false as stated: on `c1Rows` no OTHER phase has
`frame_start = 0 = c1P0.frame_end`, yet the splitter's next-phase
linker links the zero-length phase `c1P0` to itself (the
`frame_start_to_index` dict contains the row itself), so
`team_in_possession_next_phase` is `"build_up"`, not the sentinel. -/
theorem C1_counterexample :
    ((addNextPhaseSplit c1Rows)[0]?).map Phase.tipNext = some (some "build_up") ∧
    ((addNextPhaseSplit c1Rows)[0]?).map Phase.frameEnd = some 0 ∧
    (c1Rows.filter (fun r => decide (r.frameStart = 0 ∧ r ≠ c1P0))).length = 0 ∧
    "build_up" ≠ noNextPhase := by
  refine ⟨by decide, by decide, by decide, by decide⟩

theorem addNextPhaseSplit_getElem? (rows : List Phase) (k : Nat) :
    (addNextPhaseSplit rows)[k]? =
      ((sortOrd ltFS rows)[k]?).map
        (stepSplit (sortOrd ltFS rows) (sortOrd ltFS rows).length k) := by
  unfold addNextPhaseSplit
  rw [nextRows_getElem?]
  simp

theorem addNextPhaseSplit_length (rows : List Phase) :
    (addNextPhaseSplit rows).length = (sortOrd ltFS rows).length := by
  unfold addNextPhaseSplit
  rw [length_nextRows]

theorem stepAgg_matchId (s : List Phase) (r : Phase) :
    (stepAgg s r).matchId = r.matchId := by
  unfold stepAgg
  split <;> rfl

theorem stepAgg_frameStart (s : List Phase) (r : Phase) :
    (stepAgg s r).frameStart = r.frameStart := by
  unfold stepAgg
  split <;> rfl

theorem stepAgg_frameEnd (s : List Phase) (r : Phase) :
    (stepAgg s r).frameEnd = r.frameEnd := by
  unfold stepAgg
  split <;> rfl


/-- C1 (amended): with well-formed frame intervals
(`frame_start < frame_end` on every row) and phase-type labels distinct
from the sentinel, `team_in_possession_next_phase = "no_next_phase"`
holds iff no other phase of the same match has
`frame_start = this.frame_end` — for both linker implementations.
(The amendment drops the claim's unconditional wording: a zero-length
phase links to itself, see the counterexample, and periods are never
consulted by either implementation.) -/
theorem C1_amended_sentinel_iff
    (rows : List Phase) (m : Nat)
    (hm : ∀ r ∈ rows, r.matchId = m)
    (hfr : ∀ r ∈ rows, r.frameStart < r.frameEnd)
    (hpt : ∀ r ∈ rows, r.tipPt ≠ noNextPhase ∧ r.toopPt ≠ noNextPhase) :
    (∀ i, i < (addNextPhaseSplit rows).length →
      (((addNextPhaseSplit rows)[i]?).map Phase.tipNext = some (some noNextPhase) ↔
        ¬ ∃ j, j ≠ i ∧
          ((addNextPhaseSplit rows)[j]?).map Phase.matchId =
            ((addNextPhaseSplit rows)[i]?).map Phase.matchId ∧
          ((addNextPhaseSplit rows)[j]?).map Phase.frameStart =
            ((addNextPhaseSplit rows)[i]?).map Phase.frameEnd))
    ∧ (∀ i, i < (addNextPhaseAgg rows).length →
      (((addNextPhaseAgg rows)[i]?).map Phase.tipNext = some (some noNextPhase) ↔
        ¬ ∃ j, j ≠ i ∧
          ((addNextPhaseAgg rows)[j]?).map Phase.matchId =
            ((addNextPhaseAgg rows)[i]?).map Phase.matchId ∧
          ((addNextPhaseAgg rows)[j]?).map Phase.frameStart =
            ((addNextPhaseAgg rows)[i]?).map Phase.frameEnd)) := by
  constructor
  · -- splitter implementation
    intro i hi
    set s := sortOrd ltFS rows with hs
    have hp : s.Pairwise (fun x y => ltFS y x = false) := by
      rw [hs]
      exact pairwise_sortOrd ltFS ltFS_asym ltFS_trans rows
    have hi' : i < s.length := by
      rw [addNextPhaseSplit_length] at hi
      exact hi
    have hmem : ∀ x ∈ s, x ∈ rows := fun x hx => (mem_sortOrd ltFS x rows).1 hx
    have hsi : s[i]? = some s[i] := List.getElem?_eq_getElem hi'
    have hai : (addNextPhaseSplit rows)[i]? = some (stepSplit s s.length i s[i]) := by
      rw [addNextPhaseSplit_getElem?, ← hs, hsi]
      rfl
    have hFcols : ∀ j : Nat, ((addNextPhaseSplit rows)[j]?).map Phase.frameStart =
        (s[j]?).map Phase.frameStart := by
      intro j
      rw [addNextPhaseSplit_getElem?, ← hs]
      cases s[j]? with
      | none => rfl
      | some b => simp [stepSplit_frameStart]
    have hMcols : ∀ j : Nat, ((addNextPhaseSplit rows)[j]?).map Phase.matchId =
        (s[j]?).map Phase.matchId := by
      intro j
      rw [addNextPhaseSplit_getElem?, ← hs]
      cases s[j]? with
      | none => rfl
      | some b => simp [stepSplit_matchId]
    have hsimem : s[i] ∈ rows := hmem _ (List.getElem?_mem hsi)
    rw [hai]
    simp only [Option.map_some']
    rw [stepSplit_frameEnd, stepSplit_matchId]
    by_cases hlast : i + 1 < s.length
    · cases hlk : lookupLast s (s[i]).frameEnd with
      | some j =>
        obtain ⟨hj, hjfs⟩ := lookupLast_mem s _ j hlk
        have hsj : s[j]? = some s[j] := List.getElem?_eq_getElem hj
        rw [hsj] at hjfs
        simp only [Option.map_some', Option.some.injEq] at hjfs
        have hsjmem : s[j] ∈ rows := hmem _ (List.getElem?_mem hsj)
        have hred : stepSplit s s.length i s[i] =
            { s[i] with
              tipNext := some (if (s[i]).tipId = (s[j]).tipId then (s[j]).tipPt
                else (s[j]).toopPt),
              toopNext := some (if pandasEqN (s[i]).toopId (s[j]).toopId
                then (s[j]).toopPt else (s[j]).tipPt) } := by
          unfold stepSplit
          simp only [if_pos hlast, hlk, hsj]
        rw [hred]
        apply iff_of_false
        · simp only [Option.some.injEq]
          by_cases hteam : (s[i]).tipId = (s[j]).tipId
          · rw [if_pos hteam]
            exact (hpt _ hsjmem).1
          · rw [if_neg hteam]
            exact (hpt _ hsjmem).2
        · intro hno
          apply hno
          refine ⟨j, ?_, ?_, ?_⟩
          · intro hji
            subst hji
            have hlt := hfr _ hsimem
            omega
          · rw [hMcols, hsj]
            simp only [Option.map_some', Option.some.injEq]
            rw [hm _ hsjmem, hm _ hsimem]
          · rw [hFcols, hsj]
            simp only [Option.map_some', Option.some.injEq]
            exact hjfs
      | none =>
        have hred : stepSplit s s.length i s[i] =
            { s[i] with tipNext := some noNextPhase, toopNext := some noNextPhase } := by
          unfold stepSplit
          simp only [if_pos hlast, hlk]
        rw [hred]
        apply iff_of_true rfl
        rintro ⟨j, hne, hjm, hjf⟩
        rw [hFcols] at hjf
        cases hbj : s[j]? with
        | none => rw [hbj] at hjf; simp at hjf
        | some b =>
          have hjlt : j < s.length := by
            rw [List.getElem?_eq_some_iff] at hbj
            exact hbj.1
          exact (lookupLast_eq_none_iff s _).1 hlk j hjlt (by rw [hjf])
    · have hred : stepSplit s s.length i s[i] =
          { s[i] with tipNext := some noNextPhase, toopNext := some noNextPhase } := by
        unfold stepSplit
        rw [if_neg hlast]
      rw [hred]
      apply iff_of_true rfl
      rintro ⟨j, hne, hjm, hjf⟩
      rw [hFcols] at hjf
      cases hbj : s[j]? with
      | none => rw [hbj] at hjf; simp at hjf
      | some b =>
        have hjlt : j < s.length := by
          rw [List.getElem?_eq_some_iff] at hbj
          exact hbj.1
        have hji : j < i := by omega
        have hle := sorted_fs_le s hp j i hjlt hi' hji
        have hbeq : s[j]? = some s[j] := List.getElem?_eq_getElem hjlt
        rw [hbeq] at hjf
        simp only [Option.map_some', Option.some.injEq] at hjf
        have hlt := hfr _ hsimem
        omega
  · -- aggregator implementation
    intro i hi
    set s := sortOrd ltMFS rows with hs
    have hlen : (addNextPhaseAgg rows).length = s.length := by
      unfold addNextPhaseAgg
      simp [← hs]
    have hi' : i < s.length := by rw [hlen] at hi; exact hi
    have hmem : ∀ x ∈ s, x ∈ rows := fun x hx => (mem_sortOrd ltMFS x rows).1 hx
    have hget : ∀ k : Nat, (addNextPhaseAgg rows)[k]? = (s[k]?).map (stepAgg s) := by
      intro k
      unfold addNextPhaseAgg
      rw [← hs, List.getElem?_map]
    have hsi : s[i]? = some s[i] := List.getElem?_eq_getElem hi'
    have hai : (addNextPhaseAgg rows)[i]? = some (stepAgg s s[i]) := by
      rw [hget, hsi]
      rfl
    have hFcols : ∀ j : Nat, ((addNextPhaseAgg rows)[j]?).map Phase.frameStart =
        (s[j]?).map Phase.frameStart := by
      intro j
      rw [hget]
      cases s[j]? with
      | none => rfl
      | some b => simp [stepAgg_frameStart]
    have hMcols : ∀ j : Nat, ((addNextPhaseAgg rows)[j]?).map Phase.matchId =
        (s[j]?).map Phase.matchId := by
      intro j
      rw [hget]
      cases s[j]? with
      | none => rfl
      | some b => simp [stepAgg_matchId]
    have hsimem : s[i] ∈ rows := hmem _ (List.getElem?_mem hsi)
    rw [hai]
    simp only [Option.map_some']
    rw [stepAgg_frameEnd, stepAgg_matchId]
    cases hfd : aggFindNext s (s[i]).matchId (s[i]).frameEnd with
    | some nx =>
      have hfd' : aggFindNext s (s[i]).matchId (s[i]).frameEnd = some nx := hfd
      have hp0 := List.find?_some hfd
      rw [decide_eq_true_eq] at hp0
      have hnmem : nx ∈ s := List.mem_of_find?_eq_some hfd
      obtain ⟨j, hj⟩ := List.getElem?_of_mem hnmem
      have hred : stepAgg s s[i] =
          { s[i] with
            tipNext := some (if (s[i]).tipId = nx.tipId then nx.tipPt else nx.toopPt),
            toopNext := some (match nx.toopId with
              | none => noNextPhase
              | some ob => if pandasEqN (s[i]).toopId (some ob) then nx.toopPt
                else nx.tipPt) } := by
        unfold stepAgg
        simp only [hfd']
      rw [hred]
      apply iff_of_false
      · simp only [Option.some.injEq]
        by_cases hteam : (s[i]).tipId = nx.tipId
        · rw [if_pos hteam]
          exact (hpt _ (hmem _ hnmem)).1
        · rw [if_neg hteam]
          exact (hpt _ (hmem _ hnmem)).2
      · intro hno
        apply hno
        refine ⟨j, ?_, ?_, ?_⟩
        · intro hji
          subst hji
          rw [hsi] at hj
          simp only [Option.some.injEq] at hj
          have hlt := hfr _ hsimem
          rw [← hj] at hp0
          omega
        · rw [hMcols, hj]
          simp only [Option.map_some', Option.some.injEq]
          exact hp0.1
        · rw [hFcols, hj]
          simp only [Option.map_some', Option.some.injEq]
          exact hp0.2
    | none =>
      have hfd' : aggFindNext s (s[i]).matchId (s[i]).frameEnd = none := hfd
      have hred : stepAgg s s[i] =
          { s[i] with tipNext := some noNextPhase, toopNext := some noNextPhase } := by
        unfold stepAgg
        simp only [hfd']
      rw [hred]
      apply iff_of_true rfl
      rintro ⟨j, hne, hjm, hjf⟩
      rw [hFcols] at hjf
      rw [hMcols] at hjm
      cases hbj : s[j]? with
      | none => rw [hbj] at hjf; simp at hjf
      | some b =>
        rw [hbj] at hjf hjm
        simp only [Option.map_some', Option.some.injEq] at hjf hjm
        have hbmem : b ∈ s := List.getElem?_mem hbj
        have hnone := List.find?_eq_none.1 hfd b hbmem
        rw [decide_eq_true_eq] at hnone
        exact hnone ⟨hjm, hjf⟩

/-- Input rows for the C1 witness: two contiguous well-formed phases of
one match. -/
def c1wRows : List Phase :=
  [{ matchId := 1, idx := 0, frameStart := 0, frameEnd := 100, tipId := 10,
     tipName := "a", tipPt := "build_up", toopPt := "high_block",
     toopId := some 20, toopName := some "b" },
   { matchId := 1, idx := 1, frameStart := 100, frameEnd := 200, tipId := 20,
     tipName := "b", tipPt := "create", toopPt := "mid_block",
     toopId := some 10, toopName := some "a" }]

/-- Witness for `C1_amended_sentinel_iff` on `c1wRows`. -/
theorem C1_witness :
    (∀ r ∈ c1wRows, r.matchId = 1) ∧
    (∀ r ∈ c1wRows, r.frameStart < r.frameEnd) ∧
    (∀ r ∈ c1wRows, r.tipPt ≠ noNextPhase ∧ r.toopPt ≠ noNextPhase) ∧
    ((∀ i, i < (addNextPhaseSplit c1wRows).length →
      (((addNextPhaseSplit c1wRows)[i]?).map Phase.tipNext = some (some noNextPhase) ↔
        ¬ ∃ j, j ≠ i ∧
          ((addNextPhaseSplit c1wRows)[j]?).map Phase.matchId =
            ((addNextPhaseSplit c1wRows)[i]?).map Phase.matchId ∧
          ((addNextPhaseSplit c1wRows)[j]?).map Phase.frameStart =
            ((addNextPhaseSplit c1wRows)[i]?).map Phase.frameEnd))
    ∧ (∀ i, i < (addNextPhaseAgg c1wRows).length →
      (((addNextPhaseAgg c1wRows)[i]?).map Phase.tipNext = some (some noNextPhase) ↔
        ¬ ∃ j, j ≠ i ∧
          ((addNextPhaseAgg c1wRows)[j]?).map Phase.matchId =
            ((addNextPhaseAgg c1wRows)[i]?).map Phase.matchId ∧
          ((addNextPhaseAgg c1wRows)[j]?).map Phase.frameStart =
            ((addNextPhaseAgg c1wRows)[i]?).map Phase.frameEnd))) :=
  ⟨by decide, by decide, by decide,
    C1_amended_sentinel_iff c1wRows 1 (by decide) (by decide) (by decide)⟩

/-- C2: for two phases A and B of the same match with
`A.frame_end == B.frame_start` and B the linked successor of A,
`A.team_in_possession_next_phase` is B's in-possession phase type when
the two share `team_in_possession_id` and B's out-of-possession phase
type otherwise, and symmetrically (on `team_out_of_possession_id`) for
`A.team_out_of_possession_next_phase` — in both implementations. -/
theorem C2_next_phase_labels :
    (∀ (rows : List Phase) (i j : Nat) (a b : Phase) (ai bi : Nat),
      (sortOrd ltFS rows)[i]? = some a →
      i + 1 < (sortOrd ltFS rows).length →
      lookupLast (sortOrd ltFS rows) a.frameEnd = some j →
      (sortOrd ltFS rows)[j]? = some b →
      a.toopId = some ai → b.toopId = some bi →
      b.frameStart = a.frameEnd ∧
      (addNextPhaseSplit rows)[i]? = some
        { a with
          tipNext := some (if a.tipId = b.tipId then b.tipPt else b.toopPt),
          toopNext := some (if ai = bi then b.toopPt else b.tipPt) })
    ∧ (∀ (rows : List Phase) (i : Nat) (a b : Phase) (ai bi : Nat),
      (sortOrd ltMFS rows)[i]? = some a →
      aggFindNext (sortOrd ltMFS rows) a.matchId a.frameEnd = some b →
      a.toopId = some ai → b.toopId = some bi →
      b.frameStart = a.frameEnd ∧ b.matchId = a.matchId ∧
      (addNextPhaseAgg rows)[i]? = some
        { a with
          tipNext := some (if a.tipId = b.tipId then b.tipPt else b.toopPt),
          toopNext := some (if ai = bi then b.toopPt else b.tipPt) }) := by
  constructor
  · intro rows i j a b ai bi hsi hlast hlk hsj ha hb
    obtain ⟨hj, hjfs⟩ := lookupLast_mem _ _ _ hlk
    rw [hsj] at hjfs
    simp only [Option.map_some', Option.some.injEq] at hjfs
    refine ⟨hjfs, ?_⟩
    rw [addNextPhaseSplit_getElem?, hsi]
    simp only [Option.map_some', Option.some.injEq]
    unfold stepSplit
    simp only [if_pos hlast, hlk, hsj]
    rw [ha, hb]
    have hcond : (if pandasEqN (some ai) (some bi) then b.toopPt else b.tipPt) =
        (if ai = bi then b.toopPt else b.tipPt) := by
      by_cases h : ai = bi
      · simp [pandasEqN, h]
      · simp [pandasEqN, h]
    rw [hcond]
  · intro rows i a b ai bi hsi hfd ha hb
    have hp0 := List.find?_some hfd
    rw [decide_eq_true_eq] at hp0
    refine ⟨hp0.2, hp0.1, ?_⟩
    have hget : (addNextPhaseAgg rows)[i]? =
        ((sortOrd ltMFS rows)[i]?).map (stepAgg (sortOrd ltMFS rows)) := by
      unfold addNextPhaseAgg
      rw [List.getElem?_map]
    rw [hget, hsi]
    simp only [Option.map_some', Option.some.injEq]
    unfold stepAgg
    simp only [hfd]
    rw [ha, hb]
    have hred : (match some bi with
        | none => noNextPhase
        | some ob => if pandasEqN (some ai) (some ob) then b.toopPt else b.tipPt) =
        (if ai = bi then b.toopPt else b.tipPt) := by
      by_cases h : ai = bi <;> simp [pandasEqN, h]
    rw [hred]

/-- Phase A for the C2 witness. -/
def c2A : Phase :=
  { matchId := 3, idx := 0, frameStart := 0, frameEnd := 100, tipId := 10,
    tipName := "a", tipPt := "build_up", toopPt := "high_block",
    toopId := some 20, toopName := some "b" }

/-- Phase B for the C2 witness. -/
def c2B : Phase :=
  { matchId := 3, idx := 1, frameStart := 100, frameEnd := 200, tipId := 20,
    tipName := "b", tipPt := "create", toopPt := "mid_block",
    toopId := some 10, toopName := some "a" }

/-- Input rows for the C2 witness. -/
def c2wRows : List Phase := [c2A, c2B]

/-- Witness for `C2_next_phase_labels` on `c2wRows`: possession changes
at the A-to-B boundary, so A's in-possession next phase is B's
out-of-possession phase type and vice versa. -/
theorem C2_witness :
    ((sortOrd ltFS c2wRows)[0]? = some c2A) ∧
    (0 + 1 < (sortOrd ltFS c2wRows).length) ∧
    (lookupLast (sortOrd ltFS c2wRows) c2A.frameEnd = some 1) ∧
    ((sortOrd ltFS c2wRows)[1]? = some c2B) ∧
    ((addNextPhaseSplit c2wRows)[0]? = some
      { c2A with
        tipNext := some (if c2A.tipId = c2B.tipId then c2B.tipPt else c2B.toopPt),
        toopNext := some (if 20 = 10 then c2B.toopPt else c2B.tipPt) }) ∧
    ((addNextPhaseAgg c2wRows)[0]? = some
      { c2A with
        tipNext := some (if c2A.tipId = c2B.tipId then c2B.tipPt else c2B.toopPt),
        toopNext := some (if 20 = 10 then c2B.toopPt else c2B.tipPt) }) :=
  ⟨by decide, by decide, by decide, by decide,
    (C2_next_phase_labels.1 c2wRows 0 1 c2A c2B 20 10 (by decide) (by decide)
      (by decide) (by decide) (by decide) (by decide)).2,
    (C2_next_phase_labels.2 c2wRows 0 c2A c2B 20 10 (by decide) (by decide)
      (by decide) (by decide)).2.2⟩

theorem mem_uniqueFirst [DecidableEq α] (x : α) (l : List α) :
    x ∈ uniqueFirst l ↔ x ∈ l := by
  induction l with
  | nil => simp [uniqueFirst]
  | cons a t ih =>
    simp only [uniqueFirst, List.mem_cons, List.mem_filter, decide_eq_true_eq, ih]
    by_cases hx : x = a
    · simp [hx]
    · simp [hx]

theorem nodup_uniqueFirst [DecidableEq α] (l : List α) :
    (uniqueFirst l).Nodup := by
  induction l with
  | nil => simp [uniqueFirst]
  | cons a t ih =>
    rw [uniqueFirst, List.nodup_cons]
    refine ⟨?_, List.Nodup.filter _ ih⟩
    intro hmem
    have := (List.mem_filter.1 hmem).2
    simp at this

theorem nodup_pair_eq [DecidableEq α] (l : List α) (a b : α) (hab : a ≠ b)
    (hmem : ∀ x, x ∈ l ↔ (x = a ∨ x = b)) (hnd : l.Nodup) :
    l = [a, b] ∨ l = [b, a] := by
  have ha : a ∈ l := (hmem a).2 (Or.inl rfl)
  have hb : b ∈ l := (hmem b).2 (Or.inr rfl)
  cases l with
  | nil => simp at ha
  | cons x l1 =>
    cases l1 with
    | nil =>
      simp only [List.mem_singleton] at ha hb
      subst ha
      exact absurd hb.symm hab
    | cons y l2 =>
      obtain ⟨hxn, hnd2⟩ := List.nodup_cons.1 hnd
      obtain ⟨hyn, _⟩ := List.nodup_cons.1 hnd2
      have hx := (hmem x).1 (by simp)
      have hy := (hmem y).1 (by simp)
      have hxy : x ≠ y := fun he => hxn (he ▸ List.mem_cons_self y l2)
      have hl2 : l2 = [] := by
        cases l2 with
        | nil => rfl
        | cons z t =>
          have hz := (hmem z).1 (by simp)
          rcases hx with rfl | rfl <;> rcases hy with rfl | rfl <;>
            rcases hz with rfl | rfl <;> simp_all
      subst hl2
      rcases hx with rfl | rfl <;> rcases hy with rfl | rfl
      · exact absurd rfl hxy
      · exact Or.inl rfl
      · exact Or.inr rfl
      · exact absurd rfl hxy

theorem matchTeams_mem_iff (rows : List Phase) (m : Nat) (x : Nat × String) :
    x ∈ matchTeams rows m ↔
      ∃ r ∈ rows, r.matchId = m ∧ r.tipId = x.1 ∧ r.tipName = x.2 := by
  unfold matchTeams
  rw [mem_uniqueFirst, List.mem_map]
  constructor
  · rintro ⟨r, hr, rfl⟩
    have hf := List.mem_filter.1 hr
    exact ⟨r, hf.1, of_decide_eq_true hf.2, rfl, rfl⟩
  · rintro ⟨r, hr, hm, h1, h2⟩
    refine ⟨r, List.mem_filter.2 ⟨hr, decide_eq_true hm⟩, ?_⟩
    cases x
    simp_all

theorem matchTeams_two (rows : List Phase) (m i1 i2 : Nat) (n1 n2 : String)
    (hne : i1 ≠ i2)
    (hex1 : ∃ r ∈ rows, r.matchId = m ∧ r.tipId = i1 ∧ r.tipName = n1)
    (hex2 : ∃ r ∈ rows, r.matchId = m ∧ r.tipId = i2 ∧ r.tipName = n2)
    (hall : ∀ r ∈ rows, r.matchId = m →
      (r.tipId = i1 ∧ r.tipName = n1) ∨ (r.tipId = i2 ∧ r.tipName = n2)) :
    matchTeams rows m = [(i1, n1), (i2, n2)] ∨
      matchTeams rows m = [(i2, n2), (i1, n1)] := by
  have hmm : ∀ x, x ∈ matchTeams rows m ↔ (x = (i1, n1) ∨ x = (i2, n2)) := by
    intro x
    rw [matchTeams_mem_iff]
    constructor
    · rintro ⟨r, hr, hm, h1, h2⟩
      cases x
      rcases hall r hr hm with ⟨hh1, hh2⟩ | ⟨hh1, hh2⟩
      · exact Or.inl (by simp_all)
      · exact Or.inr (by simp_all)
    · rintro (rfl | rfl)
      · obtain ⟨r, hr, hm, h1, h2⟩ := hex1
        exact ⟨r, hr, hm, h1, h2⟩
      · obtain ⟨r, hr, hm, h1, h2⟩ := hex2
        exact ⟨r, hr, hm, h1, h2⟩
  exact nodup_pair_eq _ _ _ (fun h => hne (congrArg Prod.fst h)) hmm
    (nodup_uniqueFirst _)

theorem aggOpp_two (rows : List Phase) (m i1 i2 : Nat) (n1 n2 : String)
    (hne : i1 ≠ i2)
    (hex1 : ∃ r ∈ rows, r.matchId = m ∧ r.tipId = i1 ∧ r.tipName = n1)
    (hex2 : ∃ r ∈ rows, r.matchId = m ∧ r.tipId = i2 ∧ r.tipName = n2)
    (hall : ∀ r ∈ rows, r.matchId = m →
      (r.tipId = i1 ∧ r.tipName = n1) ∨ (r.tipId = i2 ∧ r.tipName = n2)) :
    aggOpp rows m i1 = some (i2, n2) ∧ aggOpp rows m i2 = some (i1, n1) := by
  have hne2 : i2 ≠ i1 := Ne.symm hne
  rcases matchTeams_two rows m i1 i2 n1 n2 hne hex1 hex2 hall with h | h <;>
    unfold aggOpp <;> rw [h] <;>
    exact ⟨by simp [List.filter, hne, hne2, sortOrd, insOrd],
           by simp [List.filter, hne, hne2, sortOrd, insOrd]⟩

theorem oopAssign_matchId (rows : List Phase) (r : Phase) :
    (oopAssign rows r).matchId = r.matchId := by
  unfold oopAssign
  split <;> rfl

theorem oopAssign_tipId (rows : List Phase) (r : Phase) :
    (oopAssign rows r).tipId = r.tipId := by
  unfold oopAssign
  split <;> rfl

theorem oopAssign_tipName (rows : List Phase) (r : Phase) :
    (oopAssign rows r).tipName = r.tipName := by
  unfold oopAssign
  split <;> rfl

theorem matchTeams_addOopAgg (rows : List Phase) (m : Nat) :
    matchTeams (addOopAgg rows) m = matchTeams rows m := by
  unfold matchTeams addOopAgg
  congr 1
  rw [List.filter_map, List.map_map]
  have h1 : ((fun r => decide (r.matchId = m)) ∘ oopAssign rows) =
      (fun r => decide (r.matchId = m)) := by
    funext r
    simp [Function.comp, oopAssign_matchId]
  have h2 : ((fun r : Phase => (r.tipId, r.tipName)) ∘ oopAssign rows) =
      (fun r : Phase => (r.tipId, r.tipName)) := by
    funext r
    simp [Function.comp, oopAssign_tipId, oopAssign_tipName]
  rw [h1, h2]

theorem aggOpp_addOopAgg (rows : List Phase) (m t : Nat) :
    aggOpp (addOopAgg rows) m t = aggOpp rows m t := by
  unfold aggOpp
  rw [matchTeams_addOopAgg]

theorem oopAssign_congr_agg (rows : List Phase) (x : Phase) :
    oopAssign (addOopAgg rows) x = oopAssign rows x := by
  unfold oopAssign
  rw [aggOpp_addOopAgg]

theorem oopAssign_idem (rows : List Phase) (r : Phase) :
    oopAssign rows (oopAssign rows r) = oopAssign rows r := by
  cases h : aggOpp rows r.matchId r.tipId with
  | some p =>
    have h1 : oopAssign rows r = { r with toopId := some p.1, toopName := some p.2 } := by
      unfold oopAssign
      rw [h]
    rw [h1]
    unfold oopAssign
    dsimp only
    rw [h]
  | none =>
    have h1 : oopAssign rows r = { r with toopId := none, toopName := none } := by
      unfold oopAssign
      rw [h]
    rw [h1]
    unfold oopAssign
    dsimp only
    rw [h]

theorem addOopAgg_idem (rows : List Phase) :
    addOopAgg (addOopAgg rows) = addOopAgg rows := by
  have hpt : ∀ x ∈ addOopAgg rows, oopAssign (addOopAgg rows) x = id x := by
    intro x hx
    obtain ⟨r, hr, hfr⟩ := List.mem_map.1 hx
    rw [oopAssign_congr_agg, ← hfr, oopAssign_idem]
    rfl
  show (addOopAgg rows).map (oopAssign (addOopAgg rows)) = addOopAgg rows
  rw [List.map_eq_map_iff.mpr hpt, List.map_id]

theorem addOopSplit_hasOop (t : SplitterTable) (h : t.hasOopCols = true) :
    addOopSplit t = .ok t := by
  unfold addOopSplit
  rw [if_pos h]

theorem addOopSplit_ok_hasOop (t t' : SplitterTable)
    (h : addOopSplit t = .ok t') : t'.hasOopCols = true := by
  unfold addOopSplit at h
  by_cases hc : t.hasOopCols = true
  · rw [if_pos hc] at h
    cases h
    exact hc
  · rw [if_neg hc] at h
    split at h
    · cases h
      rfl
    · cases h

theorem addOopSplit_idem (t : SplitterTable) :
    (addOopSplit t).bind addOopSplit = addOopSplit t := by
  cases h : addOopSplit t with
  | error e => rfl
  | ok t' =>
    show addOopSplit t' = Except.ok t'
    exact addOopSplit_hasOop t' (addOopSplit_ok_hasOop t t' h)

theorem addOopSplit_two (rows : List Phase) (i1 i2 : Nat) (n1 n2 : String)
    (hne : i1 ≠ i2) (hnn : n1 ≠ n2)
    (hex1 : ∃ r ∈ rows, r.tipId = i1 ∧ r.tipName = n1)
    (hex2 : ∃ r ∈ rows, r.tipId = i2 ∧ r.tipName = n2)
    (hall : ∀ r ∈ rows, (r.tipId = i1 ∧ r.tipName = n1) ∨
      (r.tipId = i2 ∧ r.tipName = n2)) :
    (addOopSplit { rows := rows, hasOopCols := false }).toOption.map
        (fun t => t.rows.map (fun r => (r.toopId, r.toopName)))
      = some (rows.map (fun r =>
          if r.tipId = i1 then ((some i2 : Option Nat), (some n2 : Option String))
          else (some i1, some n1))) := by
  have hids : uniqueFirst (rows.map Phase.tipId) = [i1, i2] ∨
      uniqueFirst (rows.map Phase.tipId) = [i2, i1] := by
    apply nodup_pair_eq _ _ _ hne ?_ (nodup_uniqueFirst _)
    intro x
    rw [mem_uniqueFirst, List.mem_map]
    constructor
    · rintro ⟨r, hr, rfl⟩
      rcases hall r hr with ⟨h1, _⟩ | ⟨h1, _⟩
      · exact Or.inl h1
      · exact Or.inr h1
    · rintro (rfl | rfl)
      · obtain ⟨r, hr, h1, h2⟩ := hex1
        exact ⟨r, hr, h1⟩
      · obtain ⟨r, hr, h1, h2⟩ := hex2
        exact ⟨r, hr, h1⟩
  have hnames : uniqueFirst (rows.map Phase.tipName) = [n1, n2] ∨
      uniqueFirst (rows.map Phase.tipName) = [n2, n1] := by
    apply nodup_pair_eq _ _ _ hnn ?_ (nodup_uniqueFirst _)
    intro x
    rw [mem_uniqueFirst, List.mem_map]
    constructor
    · rintro ⟨r, hr, rfl⟩
      rcases hall r hr with ⟨_, h2⟩ | ⟨_, h2⟩
      · exact Or.inl h2
      · exact Or.inr h2
    · rintro (rfl | rfl)
      · obtain ⟨r, hr, h1, h2⟩ := hex1
        exact ⟨r, hr, h2⟩
      · obtain ⟨r, hr, h1, h2⟩ := hex2
        exact ⟨r, hr, h2⟩
  have hne2 : i2 ≠ i1 := Ne.symm hne
  have hnn2 : n2 ≠ n1 := Ne.symm hnn
  unfold addOopSplit
  rcases hids with hid | hid <;> rcases hnames with hn | hn <;>
    · dsimp only
      rw [if_neg (by simp)]
      rw [hid, hn]
      dsimp only [Except.toOption]
      rw [Option.map_some']
      rw [Option.some.injEq, List.map_map]
      apply List.map_eq_map_iff.mpr
      intro r hr
      rcases hall r hr with ⟨h1, h2⟩ | ⟨h1, h2⟩ <;>
        simp [Function.comp, h1, h2, hne, hne2, hnn, hnn2]

theorem addOopAgg_two (rows : List Phase) (m i1 i2 : Nat) (n1 n2 : String)
    (hne : i1 ≠ i2)
    (hex1 : ∃ r ∈ rows, r.matchId = m ∧ r.tipId = i1 ∧ r.tipName = n1)
    (hex2 : ∃ r ∈ rows, r.matchId = m ∧ r.tipId = i2 ∧ r.tipName = n2)
    (hall : ∀ r ∈ rows, r.matchId = m →
      (r.tipId = i1 ∧ r.tipName = n1) ∨ (r.tipId = i2 ∧ r.tipName = n2)) :
    ∀ r' ∈ addOopAgg rows, r'.matchId = m →
      ((r'.tipId = i1 → r'.toopId = some i2 ∧ r'.toopName = some n2) ∧
       (r'.tipId = i2 → r'.toopId = some i1 ∧ r'.toopName = some n1)) := by
  intro r' hr' hm'
  obtain ⟨ho1, ho2⟩ := aggOpp_two rows m i1 i2 n1 n2 hne hex1 hex2 hall
  obtain ⟨r, hr, hfr⟩ := List.mem_map.1 hr'
  have hmm : r.matchId = m := by
    rw [← hfr, oopAssign_matchId] at hm'
    exact hm'
  have htid : r'.tipId = r.tipId := by
    rw [← hfr, oopAssign_tipId]
  constructor
  · intro h1
    have hr1 : r.tipId = i1 := by rw [← htid, h1]
    have : oopAssign rows r = { r with toopId := some i2, toopName := some n2 } := by
      unfold oopAssign
      rw [hmm, hr1, ho1]
    rw [← hfr, this]
    exact ⟨rfl, rfl⟩
  · intro h2
    have hr2 : r.tipId = i2 := by rw [← htid, h2]
    have : oopAssign rows r = { r with toopId := some i1, toopName := some n1 } := by
      unfold oopAssign
      rw [hmm, hr2, ho2]
    rw [← hfr, this]
    exact ⟨rfl, rfl⟩

/-- C3: on a match with exactly two in-possession teams, both
implementations of the out-of-possession assignment give every phase
the other team's id and shortname, and each implementation is
idempotent (the splitter through its columns-already-present guard, the
aggregator by recomputation from the unchanged in-possession columns). -/
theorem C3_out_of_possession_other_team :
    (∀ (rows : List Phase) (i1 i2 : Nat) (n1 n2 : String),
      i1 ≠ i2 → n1 ≠ n2 →
      (∃ r ∈ rows, r.tipId = i1 ∧ r.tipName = n1) →
      (∃ r ∈ rows, r.tipId = i2 ∧ r.tipName = n2) →
      (∀ r ∈ rows, (r.tipId = i1 ∧ r.tipName = n1) ∨
        (r.tipId = i2 ∧ r.tipName = n2)) →
      (addOopSplit { rows := rows, hasOopCols := false }).toOption.map
          (fun t => t.rows.map (fun r => (r.toopId, r.toopName)))
        = some (rows.map (fun r =>
            if r.tipId = i1 then ((some i2 : Option Nat), (some n2 : Option String))
            else (some i1, some n1))))
    ∧ (∀ t : SplitterTable, (addOopSplit t).bind addOopSplit = addOopSplit t)
    ∧ (∀ (rows : List Phase) (m i1 i2 : Nat) (n1 n2 : String),
      i1 ≠ i2 →
      (∃ r ∈ rows, r.matchId = m ∧ r.tipId = i1 ∧ r.tipName = n1) →
      (∃ r ∈ rows, r.matchId = m ∧ r.tipId = i2 ∧ r.tipName = n2) →
      (∀ r ∈ rows, r.matchId = m →
        (r.tipId = i1 ∧ r.tipName = n1) ∨ (r.tipId = i2 ∧ r.tipName = n2)) →
      ∀ r' ∈ addOopAgg rows, r'.matchId = m →
        ((r'.tipId = i1 → r'.toopId = some i2 ∧ r'.toopName = some n2) ∧
         (r'.tipId = i2 → r'.toopId = some i1 ∧ r'.toopName = some n1)))
    ∧ (∀ rows : List Phase, addOopAgg (addOopAgg rows) = addOopAgg rows) :=
  ⟨fun rows i1 i2 n1 n2 hne hnn hex1 hex2 hall =>
      addOopSplit_two rows i1 i2 n1 n2 hne hnn hex1 hex2 hall,
   addOopSplit_idem,
   fun rows m i1 i2 n1 n2 hne hex1 hex2 hall =>
      addOopAgg_two rows m i1 i2 n1 n2 hne hex1 hex2 hall,
   addOopAgg_idem⟩

/-- Input rows for the C3 witness: one match, two teams. -/
def c3wRows : List Phase :=
  [{ matchId := 5, idx := 0, frameStart := 0, frameEnd := 100, tipId := 10,
     tipName := "a", tipPt := "build_up", toopPt := "high_block" },
   { matchId := 5, idx := 1, frameStart := 100, frameEnd := 200, tipId := 20,
     tipName := "b", tipPt := "create", toopPt := "mid_block" },
   { matchId := 5, idx := 2, frameStart := 200, frameEnd := 300, tipId := 10,
     tipName := "a", tipPt := "finish", toopPt := "low_block" }]

/-- Witness for `C3_out_of_possession_other_team` on `c3wRows`. -/
theorem C3_witness :
    ((10 : Nat) ≠ 20) ∧ ("a" ≠ "b") ∧
    (∃ r ∈ c3wRows, r.tipId = 10 ∧ r.tipName = "a") ∧
    (∃ r ∈ c3wRows, r.tipId = 20 ∧ r.tipName = "b") ∧
    (∀ r ∈ c3wRows, (r.tipId = 10 ∧ r.tipName = "a") ∨
      (r.tipId = 20 ∧ r.tipName = "b")) ∧
    ((addOopSplit { rows := c3wRows, hasOopCols := false }).toOption.map
        (fun t => t.rows.map (fun r => (r.toopId, r.toopName)))
      = some (c3wRows.map (fun r =>
          if r.tipId = 10 then ((some 20 : Option Nat), (some "b" : Option String))
          else (some 10, some "a")))) ∧
    ((addOopSplit { rows := c3wRows, hasOopCols := false }).bind addOopSplit
      = addOopSplit { rows := c3wRows, hasOopCols := false }) ∧
    (∀ r' ∈ addOopAgg c3wRows, r'.matchId = 5 →
      ((r'.tipId = 10 → r'.toopId = some 20 ∧ r'.toopName = some "b") ∧
       (r'.tipId = 20 → r'.toopId = some 10 ∧ r'.toopName = some "a"))) ∧
    (addOopAgg (addOopAgg c3wRows) = addOopAgg c3wRows) :=
  ⟨by decide, by decide, by decide, by decide, by decide,
   C3_out_of_possession_other_team.1 c3wRows 10 20 "a" "b" (by decide) (by decide)
     (by decide) (by decide) (by decide),
   C3_out_of_possession_other_team.2.1 { rows := c3wRows, hasOopCols := false },
   C3_out_of_possession_other_team.2.2.1 c3wRows 5 10 20 "a" "b" (by decide)
     (by decide) (by decide) (by decide),
   C3_out_of_possession_other_team.2.2.2 c3wRows⟩

theorem addOopSplit_error (rows : List Phase)
    (hids : (uniqueFirst (rows.map Phase.tipId)).length ≠ 2) :
    addOopSplit { rows := rows, hasOopCols := false } =
      .error "Expected exactly 2 teams in phases_df to map out-of-possession team info." := by
  unfold addOopSplit
  dsimp only
  rw [if_neg (by simp)]
  split
  · next i1 i2 n1 n2 heq1 heq2 =>
    exact absurd (by rw [heq1]; rfl) hids
  · rfl

theorem addOopAgg_single (rows : List Phase) (m t1 : Nat) (nm1 : String)
    (hmt : matchTeams rows m = [(t1, nm1)]) :
    ∀ r' ∈ addOopAgg rows, r'.matchId = m →
      r'.toopId = none ∧ r'.toopName = none := by
  intro r' hr' hm'
  obtain ⟨r, hr, hfr⟩ := List.mem_map.1 hr'
  have hmm : r.matchId = m := by
    rw [← hfr, oopAssign_matchId] at hm'
    exact hm'
  have hpair : (r.tipId, r.tipName) ∈ matchTeams rows m :=
    (matchTeams_mem_iff rows m _).2 ⟨r, hr, hmm, rfl, rfl⟩
  rw [hmt, List.mem_singleton] at hpair
  have ht1 : r.tipId = t1 := congrArg Prod.fst hpair
  have hopp : aggOpp rows m t1 = none := by
    unfold aggOpp
    rw [hmt]
    simp [List.filter, sortOrd]
  have hassign : oopAssign rows r = { r with toopId := none, toopName := none } := by
    unfold oopAssign
    rw [hmm, ht1, hopp]
  rw [← hfr, hassign]
  exact ⟨rfl, rfl⟩

/-- C4 counterexample input: one match (id 7) with THREE distinct
in-possession teams. -/
def c4Rows : List Phase :=
  [{ matchId := 7, idx := 0, frameStart := 0, frameEnd := 100, tipId := 1,
     tipName := "a", tipPt := "build_up", toopPt := "high_block" },
   { matchId := 7, idx := 1, frameStart := 100, frameEnd := 200, tipId := 2,
     tipName := "b", tipPt := "create", toopPt := "mid_block" },
   { matchId := 7, idx := 2, frameStart := 200, frameEnd := 300, tipId := 3,
     tipName := "c", tipPt := "finish", toopPt := "low_block" }]

/-- C4 is false as stated: for a batch match with three distinct teams
(not exactly two), the aggregator does NOT leave the out-of-possession
columns null — it deterministically picks the other team with the
smallest id (`sort_values` + `drop_duplicates(keep="first")` in
`src/PhaseOfPlayAggregator.py` lines 48-54). -/
theorem C4_counterexample :
    (matchTeams c4Rows 7).length = 3 ∧
    (addOopAgg c4Rows).map (fun r => (r.toopId, r.toopName)) =
      [(some 2, some "b"), (some 1, some "a"), (some 1, some "a")] ∧
    ((some 2 : Option Nat), (some "b" : Option String)) ≠ (none, none) :=
  ⟨by decide, by decide, by decide⟩

/-- C4 (amended): in single-match mode a team count other than two
raises; in batch mode no error is possible (the mapping is total) and a
match with exactly ONE distinct team gets null out-of-possession
columns, while every two-team match in the batch is mapped normally; a
match with more than two teams receives the smallest-id other team
instead of null (see the counterexample). -/
theorem C4_amended_cardinality :
    (∀ rows : List Phase, (uniqueFirst (rows.map Phase.tipId)).length ≠ 2 →
      addOopSplit { rows := rows, hasOopCols := false } =
        .error "Expected exactly 2 teams in phases_df to map out-of-possession team info.")
    ∧ (∀ (rows : List Phase) (m t1 : Nat) (nm1 : String),
      matchTeams rows m = [(t1, nm1)] →
      ∀ r' ∈ addOopAgg rows, r'.matchId = m →
        r'.toopId = none ∧ r'.toopName = none)
    ∧ (∀ (rows : List Phase) (m i1 i2 : Nat) (n1 n2 : String),
      i1 ≠ i2 →
      (∃ r ∈ rows, r.matchId = m ∧ r.tipId = i1 ∧ r.tipName = n1) →
      (∃ r ∈ rows, r.matchId = m ∧ r.tipId = i2 ∧ r.tipName = n2) →
      (∀ r ∈ rows, r.matchId = m →
        (r.tipId = i1 ∧ r.tipName = n1) ∨ (r.tipId = i2 ∧ r.tipName = n2)) →
      ∀ r' ∈ addOopAgg rows, r'.matchId = m →
        ((r'.tipId = i1 → r'.toopId = some i2 ∧ r'.toopName = some n2) ∧
         (r'.tipId = i2 → r'.toopId = some i1 ∧ r'.toopName = some n1))) :=
  ⟨addOopSplit_error,
   addOopAgg_single,
   fun rows m i1 i2 n1 n2 hne hex1 hex2 hall =>
     addOopAgg_two rows m i1 i2 n1 n2 hne hex1 hex2 hall⟩

/-- Input batch for the C4 witness: match 9 has a single team, match 5
has two teams. -/
def c4wRows : List Phase :=
  [{ matchId := 9, idx := 0, frameStart := 0, frameEnd := 100, tipId := 1,
     tipName := "x", tipPt := "build_up", toopPt := "high_block" },
   { matchId := 5, idx := 0, frameStart := 0, frameEnd := 100, tipId := 10,
     tipName := "a", tipPt := "build_up", toopPt := "high_block" },
   { matchId := 5, idx := 1, frameStart := 100, frameEnd := 200, tipId := 20,
     tipName := "b", tipPt := "create", toopPt := "mid_block" }]

/-- Single-team single-match table for the C4 witness's splitter part. -/
def c4wSingle : List Phase :=
  [{ matchId := 9, idx := 0, frameStart := 0, frameEnd := 100, tipId := 1,
     tipName := "x", tipPt := "build_up", toopPt := "high_block" }]

/-- Witness for `C4_amended_cardinality`. -/
theorem C4_witness :
    ((uniqueFirst (c4wSingle.map Phase.tipId)).length ≠ 2) ∧
    (addOopSplit { rows := c4wSingle, hasOopCols := false } =
      .error "Expected exactly 2 teams in phases_df to map out-of-possession team info.") ∧
    (matchTeams c4wRows 9 = [(1, "x")]) ∧
    (∀ r' ∈ addOopAgg c4wRows, r'.matchId = 9 →
      r'.toopId = none ∧ r'.toopName = none) ∧
    (∀ r' ∈ addOopAgg c4wRows, r'.matchId = 5 →
      ((r'.tipId = 10 → r'.toopId = some 20 ∧ r'.toopName = some "b") ∧
       (r'.tipId = 20 → r'.toopId = some 10 ∧ r'.toopName = some "a"))) :=
  ⟨by decide,
   C4_amended_cardinality.1 c4wSingle (by decide),
   by decide,
   C4_amended_cardinality.2.1 c4wRows 9 1 "x" (by decide),
   C4_amended_cardinality.2.2 c4wRows 5 10 20 "a" "b" (by decide) (by decide)
     (by decide) (by decide)⟩

/-- C6 counterexample input: the second and third phases share
`frame_start = 100`. -/
def c6Rows : List Phase :=
  [{ matchId := 1, idx := 0, frameStart := 0, frameEnd := 100, tipId := 10,
     tipName := "a", tipPt := "build_up", toopPt := "high_block",
     toopId := some 20, toopName := some "b" },
   { matchId := 1, idx := 1, frameStart := 100, frameEnd := 200, tipId := 10,
     tipName := "a", tipPt := "create", toopPt := "mid_block",
     toopId := some 20, toopName := some "b" },
   { matchId := 1, idx := 2, frameStart := 100, frameEnd := 300, tipId := 10,
     tipName := "a", tipPt := "direct", toopPt := "low_block",
     toopId := some 20, toopName := some "b" }]

/-- C6 is false as stated for the splitter: with two phases sharing
`frame_start = 100`, the dict-comprehension lookup keeps the LAST
write, so the successor of the first phase is the tied phase at sorted
position 2 (phase type `"direct"`), not the earliest one at position 1
(phase type `"create"`). -/
theorem C6_counterexample :
    lookupLast (sortOrd ltFS c6Rows) 100 = some 2 ∧
    ((sortOrd ltFS c6Rows)[1]?).map Phase.frameStart = some 100 ∧
    (1 : Nat) ≠ 2 ∧
    ((addNextPhaseSplit c6Rows)[0]?).map Phase.tipNext = some (some "direct") ∧
    "direct" ≠ "create" :=
  ⟨by decide, by decide, by decide, by decide, by decide⟩

/-- C6 (amended): both lookups are deterministic functions of the
sorted input, but they break `frame_start` ties differently: the
splitter's dict keeps the LATEST tied row in sort order (greatest
position), while the aggregator's `drop_duplicates(keep="first")`
keeps the EARLIEST tied row. -/
theorem C6_amended_tie_break :
    (∀ (s : List Phase) (fe j : Nat),
      lookupLast s fe = some j ↔
        (j < s.length ∧ (s[j]?).map Phase.frameStart = some fe ∧
          ∀ k, k < s.length → (s[k]?).map Phase.frameStart = some fe → k ≤ j))
    ∧ (∀ (s : List Phase) (m fe i : Nat) (a : Phase),
      s[i]? = some a → a.matchId = m → a.frameStart = fe →
      (∀ k, k < i →
        (s[k]?).map (fun b => (b.matchId, b.frameStart)) ≠ some (m, fe)) →
      aggFindNext s m fe = some a) := by
  constructor
  · exact lookupLast_eq_some_iff
  · intro s m fe i a hi hm hf hfirst
    apply find?_eq_some_of_first hi (decide_eq_true ⟨hm, hf⟩)
    intro k b hk hkb
    apply decide_eq_false
    intro hcontra
    apply hfirst k hk
    rw [hkb]
    simp only [Option.map_some', Option.some.injEq]
    exact Prod.ext hcontra.1 hcontra.2

/-- Tied phase at sorted position 1, used by the C6 witness. -/
def c6wB : Phase :=
  { matchId := 1, idx := 1, frameStart := 100, frameEnd := 200, tipId := 10,
    tipName := "a", tipPt := "create", toopPt := "mid_block",
    toopId := some 20, toopName := some "b" }

/-- Input rows for the C6 witness (same tie pattern as the
counterexample, with `c6wB` the earliest tied row). -/
def c6wRows : List Phase :=
  [{ matchId := 1, idx := 0, frameStart := 0, frameEnd := 100, tipId := 10,
     tipName := "a", tipPt := "build_up", toopPt := "high_block",
     toopId := some 20, toopName := some "b" },
   c6wB,
   { matchId := 1, idx := 2, frameStart := 100, frameEnd := 300, tipId := 10,
     tipName := "a", tipPt := "direct", toopPt := "low_block",
     toopId := some 20, toopName := some "b" }]

/-- Witness for `C6_amended_tie_break` on `c6wRows`. -/
theorem C6_witness :
    ((sortOrd ltMFS c6wRows)[1]? = some c6wB) ∧
    (c6wB.matchId = 1) ∧ (c6wB.frameStart = 100) ∧
    (∀ k, k < 1 →
      ((sortOrd ltMFS c6wRows)[k]?).map (fun b => (b.matchId, b.frameStart)) ≠
        some (1, 100)) ∧
    (aggFindNext (sortOrd ltMFS c6wRows) 1 100 = some c6wB) ∧
    (lookupLast (sortOrd ltFS c6wRows) 100 = some 2 ↔
      (2 < (sortOrd ltFS c6wRows).length ∧
        ((sortOrd ltFS c6wRows)[2]?).map Phase.frameStart = some 100 ∧
        ∀ k, k < (sortOrd ltFS c6wRows).length →
          ((sortOrd ltFS c6wRows)[k]?).map Phase.frameStart = some 100 → k ≤ 2)) :=
  ⟨by decide, by decide, by decide, by decide,
   C6_amended_tie_break.2 (sortOrd ltMFS c6wRows) 1 100 1 c6wB (by decide)
     (by decide) (by decide) (by decide),
   C6_amended_tie_break.1 (sortOrd ltFS c6wRows) 100 2⟩

theorem insOrd_congr (lt1 lt2 : α → α → Bool) (a : α) (l : List α)
    (h : ∀ b ∈ l, lt1 b a = lt2 b a) : insOrd lt1 a l = insOrd lt2 a l := by
  induction l with
  | nil => rfl
  | cons b t ih =>
    have hb := h b (List.mem_cons_self b t)
    simp only [insOrd, hb]
    by_cases hc : lt2 b a = true
    · rw [if_pos hc, if_pos hc, ih (fun x hx => h x (List.mem_cons_of_mem b hx))]
    · rw [if_neg hc, if_neg hc]

theorem sortOrd_congr (lt1 lt2 : α → α → Bool) (l : List α)
    (h : ∀ a ∈ l, ∀ b ∈ l, lt1 a b = lt2 a b) : sortOrd lt1 l = sortOrd lt2 l := by
  induction l with
  | nil => rfl
  | cons a t ih =>
    simp only [sortOrd]
    rw [ih (fun x hx y hy => h x (List.mem_cons_of_mem a hx) y (List.mem_cons_of_mem a hy))]
    apply insOrd_congr
    intro b hb
    have hbt : b ∈ t := (mem_sortOrd lt2 b t).1 hb
    exact h b (List.mem_cons_of_mem a hbt) a (List.mem_cons_self a t)

theorem perm_insOrd (lt : α → α → Bool) (a : α) (l : List α) :
    (insOrd lt a l).Perm (a :: l) := by
  induction l with
  | nil => exact List.Perm.refl _
  | cons b t ih =>
    by_cases hc : lt b a = true
    · simp only [insOrd, hc, if_true]
      exact (List.Perm.cons b ih).trans (List.Perm.swap a b t)
    · simp only [insOrd]
      rw [if_neg hc]

theorem perm_sortOrd (lt : α → α → Bool) (l : List α) :
    (sortOrd lt l).Perm l := by
  induction l with
  | nil => exact List.Perm.refl _
  | cons a t ih =>
    simp only [sortOrd]
    exact (perm_insOrd lt a (sortOrd lt t)).trans (List.Perm.cons a ih)

theorem oopAssign_frameStart (rows : List Phase) (r : Phase) :
    (oopAssign rows r).frameStart = r.frameStart := by
  unfold oopAssign
  split <;> rfl

theorem oopAssign_frameEnd (rows : List Phase) (r : Phase) :
    (oopAssign rows r).frameEnd = r.frameEnd := by
  unfold oopAssign
  split <;> rfl

theorem ltFS_eq_ltMFS_of_same_match (m : Nat) (a b : Phase)
    (ha : a.matchId = m) (hb : b.matchId = m) : ltFS a b = ltMFS a b := by
  simp only [ltFS, ltMFS, ha, hb]
  simp [Nat.lt_irrefl]

theorem addNext_equiv (rows2 : List Phase) (m : Nat)
    (hm : ∀ r ∈ rows2, r.matchId = m)
    (hnd : (rows2.map Phase.frameStart).Nodup)
    (hfr : ∀ r ∈ rows2, r.frameStart < r.frameEnd)
    (htoop : ∀ r ∈ rows2, r.toopId ≠ none) :
    addNextPhaseSplit rows2 = addNextPhaseAgg rows2 := by
  have hseq : sortOrd ltMFS rows2 = sortOrd ltFS rows2 :=
    (sortOrd_congr ltFS ltMFS rows2
      (fun a haa b hbb => ltFS_eq_ltMFS_of_same_match m a b (hm a haa) (hm b hbb))).symm
  set s := sortOrd ltFS rows2 with hs
  have hperm : s.Perm rows2 := by
    rw [hs]
    exact perm_sortOrd ltFS rows2
  have hmem : ∀ x ∈ s, x ∈ rows2 := fun x hx => hperm.mem_iff.1 hx
  have hsnd : (s.map Phase.frameStart).Nodup :=
    ((hperm.map Phase.frameStart).nodup_iff).2 hnd
  have hp : s.Pairwise (fun x y => ltFS y x = false) := by
    rw [hs]
    exact pairwise_sortOrd ltFS ltFS_asym ltFS_trans rows2
  show nextRows s s.length 0 s = addNextPhaseAgg rows2
  have hagg : addNextPhaseAgg rows2 = s.map (stepAgg s) := by
    unfold addNextPhaseAgg
    rw [hseq]
  rw [hagg]
  apply List.ext_getElem?_iff.mpr
  intro i
  rw [nextRows_getElem?, List.getElem?_map]
  simp only [Nat.zero_add]
  cases hsi : s[i]? with
  | none => rfl
  | some a =>
    simp only [Option.map_some', Option.some.injEq]
    have hi : i < s.length := by
      rw [List.getElem?_eq_some_iff] at hsi
      exact hsi.1
    have hamem : a ∈ rows2 := hmem a (List.getElem?_mem hsi)
    have haeq : s[i] = a := by
      rw [List.getElem?_eq_getElem hi] at hsi
      exact Option.some.inj hsi
    by_cases hex : ∃ j, j < s.length ∧ (s[j]?).map Phase.frameStart = some a.frameEnd
    · obtain ⟨j, hj, hjf0⟩ := hex
      have hsj : s[j]? = some s[j] := List.getElem?_eq_getElem hj
      rw [hsj] at hjf0
      simp only [Option.map_some', Option.some.injEq] at hjf0
      have hjmem : s[j] ∈ rows2 := hmem _ (List.getElem?_mem hsj)
      have huniq : ∀ k, k < s.length →
          (s[k]?).map Phase.frameStart = some a.frameEnd → k = j := by
        intro k hk hkf
        rw [List.getElem?_eq_getElem hk] at hkf
        simp only [Option.map_some', Option.some.injEq] at hkf
        have hk2 : k < (s.map Phase.frameStart).length := by simpa using hk
        have hj2 : j < (s.map Phase.frameStart).length := by simpa using hj
        have hmk : (s.map Phase.frameStart)[k] = (s.map Phase.frameStart)[j] := by
          rw [List.getElem_map, List.getElem_map, hkf, hjf0]
        exact (List.Nodup.getElem_inj_iff hsnd).mp hmk
      have hfra : a.frameStart < a.frameEnd := hfr a hamem
      have hlast : i + 1 < s.length := by
        by_contra hcon
        have hji : j ≤ i := by omega
        rcases Nat.lt_or_ge j i with hlt | hge
        · have hle := sorted_fs_le s hp j i hj hi hlt
          rw [haeq] at hle
          omega
        · have hjeq : j = i := by omega
          subst hjeq
          rw [hsi] at hsj
          have hsa : s[j] = a := (Option.some.inj hsj).symm
          rw [hsa] at hjf0
          omega
      have hlk : lookupLast s a.frameEnd = some j := by
        apply (lookupLast_eq_some_iff s a.frameEnd j).2
        refine ⟨hj, by rw [hsj]; simp [hjf0], ?_⟩
        intro k hk hkf
        exact (huniq k hk hkf).le
      have hfd : aggFindNext s a.matchId a.frameEnd = some s[j] := by
        apply find?_eq_some_of_first hsj
        · apply decide_eq_true
          exact ⟨by rw [hm _ hjmem, hm _ hamem], hjf0⟩
        · intro k b hk hkb
          apply decide_eq_false
          rintro ⟨hbm, hbf⟩
          have hkn : k < s.length := by
            have hkb2 := hkb
            rw [List.getElem?_eq_some_iff] at hkb2
            exact hkb2.1
          have := huniq k hkn (by rw [hkb]; simp [hbf])
          omega
      obtain ⟨ob, hob⟩ : ∃ ob, s[j].toopId = some ob := by
        cases hoc : s[j].toopId with
        | none => exact absurd hoc (htoop _ hjmem)
        | some x => exact ⟨x, rfl⟩
      have h1 : stepSplit s s.length i a =
          { a with
            tipNext := some (if a.tipId = s[j].tipId then s[j].tipPt else s[j].toopPt),
            toopNext := some (if pandasEqN a.toopId (some ob) then s[j].toopPt
              else s[j].tipPt) } := by
        unfold stepSplit
        simp only [if_pos hlast, hlk, hsj, hob]
      have h2 : stepAgg s a =
          { a with
            tipNext := some (if a.tipId = s[j].tipId then s[j].tipPt else s[j].toopPt),
            toopNext := some (if pandasEqN a.toopId (some ob) then s[j].toopPt
              else s[j].tipPt) } := by
        unfold stepAgg
        simp only [hfd, hob]
      rw [h1, h2]
    · have hlkn : lookupLast s a.frameEnd = none := by
        apply (lookupLast_eq_none_iff s a.frameEnd).2
        intro k hk hkf
        exact hex ⟨k, hk, hkf⟩
      have hfdn : aggFindNext s a.matchId a.frameEnd = none := by
        apply List.find?_eq_none.2
        intro r hrs hpr
        rw [decide_eq_true_eq] at hpr
        obtain ⟨k, hks⟩ := List.getElem?_of_mem hrs
        have hkn : k < s.length := by
          have hks2 := hks
          rw [List.getElem?_eq_some_iff] at hks2
          exact hks2.1
        exact hex ⟨k, hkn, by rw [hks]; simp [hpr.2]⟩
      have h2 : stepAgg s a =
          { a with tipNext := some noNextPhase, toopNext := some noNextPhase } := by
        unfold stepAgg
        simp only [hfdn]
      have h1 : stepSplit s s.length i a =
          { a with tipNext := some noNextPhase, toopNext := some noNextPhase } := by
        unfold stepSplit
        by_cases hlast : i + 1 < s.length
        · rw [if_pos hlast]
          simp only [hlkn]
        · rw [if_neg hlast]
      rw [h1, h2]

theorem addOopSplit_eq_addOopAgg (rows : List Phase) (m i1 i2 : Nat)
    (n1 n2 : String)
    (hmm : ∀ r ∈ rows, r.matchId = m)
    (hne : i1 ≠ i2) (hnn : n1 ≠ n2)
    (hex1 : ∃ r ∈ rows, r.tipId = i1 ∧ r.tipName = n1)
    (hex2 : ∃ r ∈ rows, r.tipId = i2 ∧ r.tipName = n2)
    (hall : ∀ r ∈ rows, (r.tipId = i1 ∧ r.tipName = n1) ∨
      (r.tipId = i2 ∧ r.tipName = n2)) :
    addOopSplit { rows := rows, hasOopCols := false } =
      .ok { rows := addOopAgg rows, hasOopCols := true } := by
  have hex1' : ∃ r ∈ rows, r.matchId = m ∧ r.tipId = i1 ∧ r.tipName = n1 := by
    obtain ⟨r, hr, h1, h2⟩ := hex1
    exact ⟨r, hr, hmm r hr, h1, h2⟩
  have hex2' : ∃ r ∈ rows, r.matchId = m ∧ r.tipId = i2 ∧ r.tipName = n2 := by
    obtain ⟨r, hr, h1, h2⟩ := hex2
    exact ⟨r, hr, hmm r hr, h1, h2⟩
  have hall' : ∀ r ∈ rows, r.matchId = m →
      (r.tipId = i1 ∧ r.tipName = n1) ∨ (r.tipId = i2 ∧ r.tipName = n2) :=
    fun r hr _ => hall r hr
  obtain ⟨ho1, ho2⟩ := aggOpp_two rows m i1 i2 n1 n2 hne hex1' hex2' hall'
  have hoop : ∀ r ∈ rows, r.tipId = i1 → oopAssign rows r =
      { r with toopId := some i2, toopName := some n2 } := by
    intro r hr h1
    unfold oopAssign
    rw [hmm r hr, h1, ho1]
  have hoop2 : ∀ r ∈ rows, r.tipId = i2 → oopAssign rows r =
      { r with toopId := some i1, toopName := some n1 } := by
    intro r hr h2
    unfold oopAssign
    rw [hmm r hr, h2, ho2]
  have hids : uniqueFirst (rows.map Phase.tipId) = [i1, i2] ∨
      uniqueFirst (rows.map Phase.tipId) = [i2, i1] := by
    apply nodup_pair_eq _ _ _ hne ?_ (nodup_uniqueFirst _)
    intro x
    rw [mem_uniqueFirst, List.mem_map]
    constructor
    · rintro ⟨r, hr, rfl⟩
      rcases hall r hr with ⟨h1, _⟩ | ⟨h1, _⟩
      · exact Or.inl h1
      · exact Or.inr h1
    · rintro (rfl | rfl)
      · obtain ⟨r, hr, h1, h2⟩ := hex1
        exact ⟨r, hr, h1⟩
      · obtain ⟨r, hr, h1, h2⟩ := hex2
        exact ⟨r, hr, h1⟩
  have hnames : uniqueFirst (rows.map Phase.tipName) = [n1, n2] ∨
      uniqueFirst (rows.map Phase.tipName) = [n2, n1] := by
    apply nodup_pair_eq _ _ _ hnn ?_ (nodup_uniqueFirst _)
    intro x
    rw [mem_uniqueFirst, List.mem_map]
    constructor
    · rintro ⟨r, hr, rfl⟩
      rcases hall r hr with ⟨_, h2⟩ | ⟨_, h2⟩
      · exact Or.inl h2
      · exact Or.inr h2
    · rintro (rfl | rfl)
      · obtain ⟨r, hr, h1, h2⟩ := hex1
        exact ⟨r, hr, h2⟩
      · obtain ⟨r, hr, h1, h2⟩ := hex2
        exact ⟨r, hr, h2⟩
  have hne2 : i2 ≠ i1 := Ne.symm hne
  have hnn2 : n2 ≠ n1 := Ne.symm hnn
  unfold addOopSplit
  rcases hids with hid | hid <;> rcases hnames with hn | hn <;>
    · dsimp only
      rw [if_neg (by simp)]
      rw [hid, hn]
      dsimp only
      rw [Except.ok.injEq]
      rw [SplitterTable.mk.injEq]
      refine ⟨?_, rfl⟩
      show _ = addOopAgg rows
      unfold addOopAgg
      apply List.map_eq_map_iff.mpr
      intro r hr
      rcases hall r hr with ⟨h1, h2⟩ | ⟨h1, h2⟩
      · rw [hoop r hr h1]
        simp [h1, h2, hne, hne2, hnn, hnn2]
      · rw [hoop2 r hr h1]
        simp [h1, h2, hne, hne2, hnn, hnn2]

/-- C10 counterexample input: two teams, but the second and third
phases share `frame_start = 100`. -/
def c10Rows : List Phase :=
  [{ matchId := 1, idx := 0, frameStart := 0, frameEnd := 100, tipId := 10,
     tipName := "a", tipPt := "build_up", toopPt := "high_block" },
   { matchId := 1, idx := 1, frameStart := 100, frameEnd := 200, tipId := 10,
     tipName := "a", tipPt := "create", toopPt := "mid_block" },
   { matchId := 1, idx := 2, frameStart := 100, frameEnd := 300, tipId := 20,
     tipName := "b", tipPt := "direct", toopPt := "low_block" }]

/-- C10 is false as stated: on a two-team single-match table with a
duplicated `frame_start`, the splitter links the first phase to the
LAST tied row (team b's phase, so the label is its out-of-possession
type `"low_block"`), while the aggregator links it to the FIRST tied
row (team a's phase, label `"create"`); the two implementations
disagree on `team_in_possession_next_phase`. -/
theorem C10_counterexample :
    (pipelineSplit c10Rows).toOption.map (List.map Phase.tipNext) =
      some [some "low_block", some noNextPhase, some noNextPhase] ∧
    (pipelineAgg c10Rows).map Phase.tipNext =
      [some "create", some noNextPhase, some noNextPhase] ∧
    ("low_block" : String) ≠ "create" :=
  ⟨by decide, by decide, by decide⟩

/-- C10 (amended): on a single-match table with exactly two
in-possession teams, pairwise-distinct `frame_start` values, and
`frame_start < frame_end` on every row, the two pipelines
(`PhasesEnricherSplitter`'s out-of-possession assignment plus next
phase, and `PhasesOfPlayAggregator`'s constructor) produce identical
rows, in particular the same `team_in_possession_next_phase` and
`team_out_of_possession_next_phase` on every phase row. -/
theorem C10_amended_pipeline_equiv (rows : List Phase) (m i1 i2 : Nat)
    (n1 n2 : String)
    (hmm : ∀ r ∈ rows, r.matchId = m)
    (hne : i1 ≠ i2) (hnn : n1 ≠ n2)
    (hex1 : ∃ r ∈ rows, r.tipId = i1 ∧ r.tipName = n1)
    (hex2 : ∃ r ∈ rows, r.tipId = i2 ∧ r.tipName = n2)
    (hall : ∀ r ∈ rows, (r.tipId = i1 ∧ r.tipName = n1) ∨
      (r.tipId = i2 ∧ r.tipName = n2))
    (hnd : (rows.map Phase.frameStart).Nodup)
    (hfr : ∀ r ∈ rows, r.frameStart < r.frameEnd) :
    pipelineSplit rows = .ok (pipelineAgg rows) := by
  have hex1' : ∃ r ∈ rows, r.matchId = m ∧ r.tipId = i1 ∧ r.tipName = n1 := by
    obtain ⟨r, hr, h1, h2⟩ := hex1
    exact ⟨r, hr, hmm r hr, h1, h2⟩
  have hex2' : ∃ r ∈ rows, r.matchId = m ∧ r.tipId = i2 ∧ r.tipName = n2 := by
    obtain ⟨r, hr, h1, h2⟩ := hex2
    exact ⟨r, hr, hmm r hr, h1, h2⟩
  have hall' : ∀ r ∈ rows, r.matchId = m →
      (r.tipId = i1 ∧ r.tipName = n1) ∨ (r.tipId = i2 ∧ r.tipName = n2) :=
    fun r hr _ => hall r hr
  obtain ⟨ho1, ho2⟩ := aggOpp_two rows m i1 i2 n1 n2 hne hex1' hex2' hall'
  have hm2 : ∀ r' ∈ addOopAgg rows, r'.matchId = m := by
    intro r' hr'
    obtain ⟨r, hr, hfr'⟩ := List.mem_map.1 hr'
    rw [← hfr', oopAssign_matchId]
    exact hmm r hr
  have hnd2 : ((addOopAgg rows).map Phase.frameStart).Nodup := by
    have heq : (addOopAgg rows).map Phase.frameStart = rows.map Phase.frameStart := by
      unfold addOopAgg
      rw [List.map_map]
      apply List.map_eq_map_iff.mpr
      intro r hr
      exact oopAssign_frameStart rows r
    rw [heq]
    exact hnd
  have hfr2 : ∀ r' ∈ addOopAgg rows, r'.frameStart < r'.frameEnd := by
    intro r' hr'
    obtain ⟨r, hr, hfr'⟩ := List.mem_map.1 hr'
    rw [← hfr', oopAssign_frameStart, oopAssign_frameEnd]
    exact hfr r hr
  have htoop2 : ∀ r' ∈ addOopAgg rows, r'.toopId ≠ none := by
    intro r' hr'
    obtain ⟨r, hr, hfr'⟩ := List.mem_map.1 hr'
    rcases hall r hr with ⟨h1, _⟩ | ⟨h1, _⟩
    · have : oopAssign rows r = { r with toopId := some i2, toopName := some n2 } := by
        unfold oopAssign
        rw [hmm r hr, h1, ho1]
      rw [← hfr', this]
      simp
    · have : oopAssign rows r = { r with toopId := some i1, toopName := some n1 } := by
        unfold oopAssign
        rw [hmm r hr, h1, ho2]
      rw [← hfr', this]
      simp
  unfold pipelineSplit pipelineAgg
  rw [addOopSplit_eq_addOopAgg rows m i1 i2 n1 n2 hmm hne hnn hex1 hex2 hall]
  show Except.ok (addNextPhaseSplit (addOopAgg rows)) =
    Except.ok (addNextPhaseAgg (addOopAgg rows))
  rw [addNext_equiv (addOopAgg rows) m hm2 hnd2 hfr2 htoop2]

/-- Input rows for the C10 witness: two teams, distinct frame starts,
well-formed intervals. -/
def c10wRows : List Phase :=
  [{ matchId := 1, idx := 0, frameStart := 0, frameEnd := 100, tipId := 10,
     tipName := "a", tipPt := "build_up", toopPt := "high_block" },
   { matchId := 1, idx := 1, frameStart := 100, frameEnd := 200, tipId := 20,
     tipName := "b", tipPt := "high_block", toopPt := "create" },
   { matchId := 1, idx := 2, frameStart := 200, frameEnd := 300, tipId := 10,
     tipName := "a", tipPt := "finish", toopPt := "low_block" }]

/-- Witness for `C10_amended_pipeline_equiv` on `c10wRows`. -/
theorem C10_witness :
    (∀ r ∈ c10wRows, r.matchId = 1) ∧
    ((10 : Nat) ≠ 20) ∧ ("a" ≠ "b") ∧
    (∃ r ∈ c10wRows, r.tipId = 10 ∧ r.tipName = "a") ∧
    (∃ r ∈ c10wRows, r.tipId = 20 ∧ r.tipName = "b") ∧
    (∀ r ∈ c10wRows, (r.tipId = 10 ∧ r.tipName = "a") ∨
      (r.tipId = 20 ∧ r.tipName = "b")) ∧
    ((c10wRows.map Phase.frameStart).Nodup) ∧
    (∀ r ∈ c10wRows, r.frameStart < r.frameEnd) ∧
    (pipelineSplit c10wRows = .ok (pipelineAgg c10wRows)) :=
  ⟨by decide, by decide, by decide, by decide, by decide, by decide, by decide,
   by decide,
   C10_amended_pipeline_equiv c10wRows 1 10 20 "a" "b" (by decide) (by decide)
     (by decide) (by decide) (by decide) (by decide) (by decide) (by decide)⟩

/-- A row of the dynamic-events table, with the columns
`_enrich_from_dynamic_events` requires (`src/enrich_pop_file.py`
lines 179-190). -/
structure DynEvent where
  matchId : Nat
  phaseIndex : Nat
  idx : Nat
  eventType : String
  eventSubtype : Option String
  frameStart : Nat
  teamScore : Int
  opponentTeamScore : Int
  firstPP : Bool
  lastPP : Bool
  ldlhStart : Int
  ldlhEnd : Int
  nTeammatesAheadStart : Int
  nOpponentsAheadStart : Int
  nTeammatesAheadEnd : Int
  nOpponentsAheadEnd : Int
deriving DecidableEq

/-- Null-subtype normalization `de["event_subtype"].fillna("None")`
(`src/enrich_pop_file.py` line 203). -/
def subtypeNorm (s : Option String) : String := s.getD "None"

/-- Value of the `n_<event_type>` count column on phase `(m, pidx)`:
the composite of `groupby(...).size()`, the zero-filled pivot, the
left-merge on `(match_id, index) = (match_id, phase_index)` and the
final `fillna(0).astype(int)` (`src/enrich_pop_file.py` lines 210-226
and 371-384).  Counting is keyed by the raw `event_type` value; the
slugified column naming is not modelled. -/
def eventTypeCount (de : List DynEvent) (m pidx : Nat) (t : String) : Nat :=
  (de.filter (fun e =>
    decide (e.matchId = m ∧ e.phaseIndex = pidx ∧ e.eventType = t))).length

/-- Value of the `n_<event_subtype>` count column on phase `(m, pidx)`,
with null subtype counted as `"None"` (`src/enrich_pop_file.py`
lines 229-245). -/
def eventSubtypeCount (de : List DynEvent) (m pidx : Nat) (t : String) : Nat :=
  (de.filter (fun e =>
    decide (e.matchId = m ∧ e.phaseIndex = pidx ∧
      subtypeNorm e.eventSubtype = t))).length

theorem length_filter_cons (p : α → Bool) (a : α) (l : List α) :
    (List.filter p (a :: l)).length =
      (if p a = true then 1 else 0) + (List.filter p l).length := by
  by_cases h : p a = true <;> simp [List.filter_cons, h]
  omega

theorem sum_map_add (l : List α) (f g : α → Nat) :
    (l.map (fun x => f x + g x)).sum = (l.map f).sum + (l.map g).sum := by
  induction l with
  | nil => simp
  | cons a t ih =>
    simp only [List.map_cons, List.sum_cons, ih]
    omega

theorem sum_map_ite_one (l : List α) (c : α → Prop) [DecidablePred c] :
    (l.map (fun x => if c x then 1 else 0)).sum = l.countP (fun x => decide (c x)) := by
  induction l with
  | nil => simp
  | cons a t ih =>
    simp only [List.map_cons, List.sum_cons, ih, List.countP_cons]
    by_cases h : c a
    · simp [h]
      omega
    · simp [h]

theorem countP_idx_eq_one (qs : List Phase) (x : Nat)
    (hnd : (qs.map Phase.idx).Nodup) (hx : x ∈ qs.map Phase.idx) :
    qs.countP (fun p => decide (p.idx = x)) = 1 := by
  induction qs with
  | nil => simp at hx
  | cons q t ih =>
    simp only [List.map_cons, List.nodup_cons] at hnd
    rcases List.mem_cons.1 hx with hq | ht
    · rw [List.countP_cons]
      have hq' : q.idx = x := hq.symm
      have hz : t.countP (fun p => decide (p.idx = x)) = 0 := by
        rw [List.countP_eq_zero]
        intro p hp hc
        rw [decide_eq_true_eq] at hc
        apply hnd.1
        rw [hq', ← hc]
        exact List.mem_map_of_mem Phase.idx hp
      simp [hz, hq']
    · rw [List.countP_cons]
      have hqx : q.idx ≠ x := by
        intro he
        apply hnd.1
        rw [he]
        exact ht
      rw [ih hnd.2 ht]
      simp [hqx]

theorem count_sum_key (key : DynEvent → String) (qs : List Phase) (m : Nat)
    (t : String) (hnd : (qs.map Phase.idx).Nodup) :
    ∀ de : List DynEvent,
      (∀ e ∈ de, e.matchId = m → e.phaseIndex ∈ qs.map Phase.idx) →
      (qs.map (fun p => (de.filter (fun e =>
          decide (e.matchId = m ∧ e.phaseIndex = p.idx ∧ key e = t))).length)).sum
        = (de.filter (fun e => decide (e.matchId = m ∧ key e = t))).length := by
  intro de
  induction de with
  | nil =>
    intro _
    simp
  | cons e de' ih =>
    intro hfk
    have hfk' : ∀ x ∈ de', x.matchId = m → x.phaseIndex ∈ qs.map Phase.idx :=
      fun x hx => hfk x (List.mem_cons_of_mem e hx)
    have hL : (qs.map (fun p => (List.filter (fun x =>
        decide (x.matchId = m ∧ x.phaseIndex = p.idx ∧ key x = t)) (e :: de')).length)).sum
        = (qs.map (fun p =>
            (if (e.matchId = m ∧ e.phaseIndex = p.idx ∧ key e = t) then 1 else 0) +
            (List.filter (fun x =>
              decide (x.matchId = m ∧ x.phaseIndex = p.idx ∧ key x = t)) de').length)).sum := by
      congr 1
      apply List.map_eq_map_iff.mpr
      intro p hp
      rw [length_filter_cons]
      by_cases h : (e.matchId = m ∧ e.phaseIndex = p.idx ∧ key e = t) <;> simp [h]
    rw [hL, sum_map_add, sum_map_ite_one, ih hfk', length_filter_cons]
    by_cases hc : e.matchId = m ∧ key e = t
    · have h1 : qs.countP (fun p =>
          decide (e.matchId = m ∧ e.phaseIndex = p.idx ∧ key e = t)) =
          qs.countP (fun p => decide (p.idx = e.phaseIndex)) := by
        apply List.countP_congr
        intro p hp
        constructor
        · intro h
          rw [decide_eq_true_eq] at h ⊢
          exact h.2.1.symm
        · intro h
          rw [decide_eq_true_eq] at h ⊢
          exact ⟨hc.1, h.symm, hc.2⟩
      rw [h1, countP_idx_eq_one qs e.phaseIndex hnd (hfk e (List.mem_cons_self e de') hc.1)]
      simp [hc]
    · have h1 : qs.countP (fun p =>
          decide (e.matchId = m ∧ e.phaseIndex = p.idx ∧ key e = t)) = 0 := by
        rw [List.countP_eq_zero]
        intro p hp h
        rw [decide_eq_true_eq] at h
        exact hc ⟨h.1, h.2.2⟩
      rw [h1]
      simp [hc]

/-- C7: every dynamic-event count column value is a natural number
(the model's type, matching `fillna(0).astype(int)` of non-negative
group sizes), it is zero when the phase has no matching events, and for
each match and `event_type` (resp. `event_subtype`, null counted as
`"None"`) the column summed over the match's phases equals the number
of that match's dynamic-event rows with that type (resp. subtype),
provided the match's phase ids are distinct and every event's
`phase_index` references a phase of its match. -/
theorem C7_count_columns :
    (∀ (de : List DynEvent) (m pidx : Nat) (t : String),
      (∀ e ∈ de, ¬(e.matchId = m ∧ e.phaseIndex = pidx ∧ e.eventType = t)) →
      eventTypeCount de m pidx t = 0) ∧
    (∀ (phases : List Phase) (de : List DynEvent) (m : Nat) (t : String),
      (((phases.filter (fun p => decide (p.matchId = m))).map Phase.idx).Nodup) →
      (∀ e ∈ de, e.matchId = m →
        e.phaseIndex ∈ (phases.filter (fun p => decide (p.matchId = m))).map Phase.idx) →
      ((phases.filter (fun p => decide (p.matchId = m))).map
          (fun p => eventTypeCount de m p.idx t)).sum
        = (de.filter (fun e => decide (e.matchId = m ∧ e.eventType = t))).length) ∧
    (∀ (phases : List Phase) (de : List DynEvent) (m : Nat) (t : String),
      (((phases.filter (fun p => decide (p.matchId = m))).map Phase.idx).Nodup) →
      (∀ e ∈ de, e.matchId = m →
        e.phaseIndex ∈ (phases.filter (fun p => decide (p.matchId = m))).map Phase.idx) →
      ((phases.filter (fun p => decide (p.matchId = m))).map
          (fun p => eventSubtypeCount de m p.idx t)).sum
        = (de.filter (fun e =>
            decide (e.matchId = m ∧ subtypeNorm e.eventSubtype = t))).length) := by
  refine ⟨?_, ?_, ?_⟩
  · intro de m pidx t h
    unfold eventTypeCount
    rw [List.length_eq_zero]
    rw [List.filter_eq_nil_iff]
    intro e he
    rw [decide_eq_true_eq]
    exact h e he
  · intro phases de m t hnd hfk
    unfold eventTypeCount
    exact count_sum_key (fun e => e.eventType)
      (phases.filter (fun p => decide (p.matchId = m))) m t hnd de hfk
  · intro phases de m t hnd hfk
    unfold eventSubtypeCount
    exact count_sum_key (fun e => subtypeNorm e.eventSubtype)
      (phases.filter (fun p => decide (p.matchId = m))) m t hnd de hfk

/-- Phases for the C7 witness. -/
def c7Phases : List Phase :=
  [{ matchId := 1, idx := 0, frameStart := 0, frameEnd := 100, tipId := 10,
     tipName := "a", tipPt := "build_up", toopPt := "high_block" },
   { matchId := 1, idx := 1, frameStart := 100, frameEnd := 200, tipId := 20,
     tipName := "b", tipPt := "create", toopPt := "mid_block" }]

/-- Dynamic events for the C7 witness: three `player_possession` and
two `passing_option` rows split over the two phases of match 1. -/
def c7Events : List DynEvent :=
  [{ matchId := 1, phaseIndex := 0, idx := 0, eventType := "player_possession",
     eventSubtype := none, frameStart := 5, teamScore := 0,
     opponentTeamScore := 0, firstPP := true, lastPP := false, ldlhStart := 30,
     ldlhEnd := 40, nTeammatesAheadStart := 3, nOpponentsAheadStart := 5,
     nTeammatesAheadEnd := 2, nOpponentsAheadEnd := 6 },
   { matchId := 1, phaseIndex := 0, idx := 1, eventType := "player_possession",
     eventSubtype := some "carry", frameStart := 20, teamScore := 0,
     opponentTeamScore := 0, firstPP := false, lastPP := true, ldlhStart := 31,
     ldlhEnd := 41, nTeammatesAheadStart := 4, nOpponentsAheadStart := 4,
     nTeammatesAheadEnd := 3, nOpponentsAheadEnd := 5 },
   { matchId := 1, phaseIndex := 1, idx := 2, eventType := "player_possession",
     eventSubtype := none, frameStart := 110, teamScore := 0,
     opponentTeamScore := 1, firstPP := true, lastPP := true, ldlhStart := 35,
     ldlhEnd := 45, nTeammatesAheadStart := 1, nOpponentsAheadStart := 7,
     nTeammatesAheadEnd := 2, nOpponentsAheadEnd := 6 },
   { matchId := 1, phaseIndex := 0, idx := 3, eventType := "passing_option",
     eventSubtype := some "behind", frameStart := 12, teamScore := 0,
     opponentTeamScore := 0, firstPP := false, lastPP := false, ldlhStart := 30,
     ldlhEnd := 40, nTeammatesAheadStart := 3, nOpponentsAheadStart := 5,
     nTeammatesAheadEnd := 2, nOpponentsAheadEnd := 6 },
   { matchId := 1, phaseIndex := 1, idx := 4, eventType := "passing_option",
     eventSubtype := some "behind", frameStart := 130, teamScore := 0,
     opponentTeamScore := 1, firstPP := false, lastPP := false, ldlhStart := 35,
     ldlhEnd := 45, nTeammatesAheadStart := 1, nOpponentsAheadStart := 7,
     nTeammatesAheadEnd := 2, nOpponentsAheadEnd := 6 }]

/-- Witness for `C7_count_columns` on `c7Phases`/`c7Events`. -/
theorem C7_witness :
    ((∀ e ∈ c7Events, ¬(e.matchId = 1 ∧ e.phaseIndex = 0 ∧ e.eventType = "shot")) ∧
      eventTypeCount c7Events 1 0 "shot" = 0) ∧
    ((((c7Phases.filter (fun p => decide (p.matchId = 1))).map Phase.idx).Nodup) ∧
      (∀ e ∈ c7Events, e.matchId = 1 →
        e.phaseIndex ∈ (c7Phases.filter (fun p => decide (p.matchId = 1))).map Phase.idx) ∧
      ((c7Phases.filter (fun p => decide (p.matchId = 1))).map
          (fun p => eventTypeCount c7Events 1 p.idx "player_possession")).sum
        = (c7Events.filter (fun e =>
            decide (e.matchId = 1 ∧ e.eventType = "player_possession"))).length ∧
      ((c7Phases.filter (fun p => decide (p.matchId = 1))).map
          (fun p => eventSubtypeCount c7Events 1 p.idx "None")).sum
        = (c7Events.filter (fun e =>
            decide (e.matchId = 1 ∧ subtypeNorm e.eventSubtype = "None"))).length) :=
  ⟨⟨by decide, C7_count_columns.1 c7Events 1 0 "shot" (by decide)⟩,
   ⟨by decide, by decide,
    C7_count_columns.2.1 c7Phases c7Events 1 "player_possession" (by decide) (by decide),
    C7_count_columns.2.2 c7Phases c7Events 1 "None" (by decide) (by decide)⟩⟩

/-- Value of a float column cell as numpy/pandas produce it in the
season rollup: a finite double (modelled by a rational), `NaN`, or a
signed infinity.  Numpy float arithmetic is total — division by zero
emits a warning and produces `inf`/`-inf`/`NaN`, it never raises — so
every operation below is a total function. -/
inductive FVal where
  | fin (q : ℚ)
  | nan
  | inf
  | ninf
deriving DecidableEq

/-- A cell is finite when it is neither `NaN` nor an infinity
(`np.isfinite`). -/
def FVal.isFinite : FVal → Bool
  | fin _ => true
  | _ => false

/-- IEEE-754 subtraction on column cells. -/
def FVal.sub : FVal → FVal → FVal
  | fin a, fin b => fin (a - b)
  | fin _, inf => ninf
  | fin _, ninf => inf
  | inf, fin _ => inf
  | ninf, fin _ => ninf
  | inf, ninf => inf
  | ninf, inf => ninf
  | inf, inf => nan
  | ninf, ninf => nan
  | nan, _ => nan
  | _, nan => nan

/-- IEEE-754 multiplication on column cells. -/
def FVal.mul : FVal → FVal → FVal
  | fin a, fin b => fin (a * b)
  | fin a, inf => if a = 0 then nan else if 0 < a then inf else ninf
  | fin a, ninf => if a = 0 then nan else if 0 < a then ninf else inf
  | inf, fin b => if b = 0 then nan else if 0 < b then inf else ninf
  | ninf, fin b => if b = 0 then nan else if 0 < b then ninf else inf
  | inf, inf => inf
  | inf, ninf => ninf
  | ninf, inf => ninf
  | ninf, ninf => inf
  | nan, _ => nan
  | _, nan => nan

/-- IEEE-754 division on column cells: a finite numerator over zero is
`NaN` (0/0) or a signed infinity, never an exception — numpy's
behaviour for the zero denominators of the season rollup. -/
def FVal.div : FVal → FVal → FVal
  | fin a, fin b =>
      if b = 0 then (if a = 0 then nan else if 0 < a then inf else ninf)
      else fin (a / b)
  | fin _, inf => fin 0
  | fin _, ninf => fin 0
  | inf, fin b => if 0 ≤ b then inf else ninf
  | ninf, fin b => if 0 ≤ b then ninf else inf
  | inf, inf => nan
  | inf, ninf => nan
  | ninf, inf => nan
  | ninf, ninf => nan
  | nan, _ => nan
  | _, nan => nan

/-- Season-rollup per-90 rate
`(count_<phase> / minutes_played) * 90`
(`src/get_phase_of_play_aggregates.py` lines 70-74). -/
def per90 (count minutes : FVal) : FVal := (count.div minutes).mul (.fin 90)

/-- Season-rollup percentage `(numerator / denominator) * 100`
(`src/get_phase_of_play_aggregates.py` lines 76-120). -/
def pct (num den : FVal) : FVal := (num.div den).mul (.fin 100)

/-- Competition score `(m - m.mean()) / m.std()`
(`src/get_phase_of_play_aggregates.py` lines 146-150), with the
column's mean and standard deviation as inputs. -/
def zscore (x mean std : FVal) : FVal := (x.sub mean).div std

/-- C8: a per-90 rate with `minutes_played = 0`, a percentage with a
zero phase count in the denominator, and a competition z-score with
zero standard deviation all evaluate to a non-finite cell (`NaN` or a
signed infinity); the modelled numpy arithmetic is total, so no
exception can be raised. -/
theorem C8_degenerate_denominators (c x mu : ℚ) :
    (per90 (.fin c) (.fin 0)).isFinite = false ∧
    (pct (.fin c) (.fin 0)).isFinite = false ∧
    (zscore (.fin x) (.fin mu) (.fin 0)).isFinite = false := by
  refine ⟨?_, ?_, ?_⟩
  · rcases lt_trichotomy c 0 with h | h | h
    · have h1 : c ≠ 0 := ne_of_lt h
      have h2 : ¬ 0 < c := not_lt.mpr h.le
      norm_num [per90, FVal.div, FVal.mul, FVal.isFinite, h1, h2]
    · subst h
      norm_num [per90, FVal.div, FVal.mul, FVal.isFinite]
    · have h1 : c ≠ 0 := (ne_of_lt h).symm
      norm_num [per90, FVal.div, FVal.mul, FVal.isFinite, h1, h]
  · rcases lt_trichotomy c 0 with h | h | h
    · have h1 : c ≠ 0 := ne_of_lt h
      have h2 : ¬ 0 < c := not_lt.mpr h.le
      norm_num [pct, FVal.div, FVal.mul, FVal.isFinite, h1, h2]
    · subst h
      norm_num [pct, FVal.div, FVal.mul, FVal.isFinite]
    · have h1 : c ≠ 0 := (ne_of_lt h).symm
      norm_num [pct, FVal.div, FVal.mul, FVal.isFinite, h1, h]
  · rcases lt_trichotomy (x - mu) 0 with h | h | h
    · have h1 : x - mu ≠ 0 := ne_of_lt h
      have h2 : ¬ 0 < x - mu := not_lt.mpr h.le
      norm_num [zscore, FVal.sub, FVal.div, FVal.isFinite, h1, h2]
    · norm_num [zscore, FVal.sub, FVal.div, FVal.isFinite, h]
    · have h1 : x - mu ≠ 0 := (ne_of_lt h).symm
      norm_num [zscore, FVal.sub, FVal.div, FVal.isFinite, h1, h]

/-- A dataframe cell: integer-like, string, or missing (`NaN`/`None`). -/
inductive Val where
  | int (n : Int)
  | str (s : String)
  | null
deriving DecidableEq

/-- A dataframe as `_split` manipulates it: named columns over
row-major cells.  A cell missing from a short row reads as `null`. -/
structure Df where
  cols : List String
  rows : List (List Val)
deriving DecidableEq

/-- Position of the first column named `c`. -/
def idxOfStr (c : String) : List String → Option Nat
  | [] => none
  | x :: l => if x = c then some 0 else (idxOfStr c l).map (· + 1)

/-- Column extraction `df["c"]`; `none` when the column is absent. -/
def getCol (d : Df) (c : String) : Option (List Val) :=
  (idxOfStr c d.cols).map (fun i => d.rows.map (fun row => row.getD i .null))

/-- Cell of `row` under column name `c` of `d`. -/
def valAt (d : Df) (row : List Val) (c : String) : Val :=
  match idxOfStr c d.cols with
  | some i => row.getD i .null
  | none => .null

/-- The `keep` helper of `_split`
(`df[[c for c in cols if c in df.columns]]`). -/
def keepCols (d : Df) (cs : List String) : Df :=
  { cols := cs.filter (fun c => d.cols.contains c),
    rows := d.rows.map (fun row =>
      (cs.filter (fun c => d.cols.contains c)).map (fun c => valAt d row c)) }

/-- The `_rename_safe` helper of `_split`: rename every column by the
map, leaving unmapped names unchanged. -/
def renameCols (d : Df) (mp : List (String × String)) : Df :=
  { d with cols := d.cols.map (fun c => (List.lookup c mp).getD c) }

theorem idxOfStr_eq_none_iff (c : String) (l : List String) :
    idxOfStr c l = none ↔ c ∉ l := by
  induction l with
  | nil => simp [idxOfStr]
  | cons x t ih =>
    simp only [idxOfStr, List.mem_cons]
    by_cases hx : x = c
    · simp [hx]
    · simp only [if_neg hx]
      rw [Option.map_eq_none']
      rw [ih]
      constructor
      · intro h hc
        rcases hc with hc | hc
        · exact hx hc.symm
        · exact h hc
      · intro h hc
        exact h (Or.inr hc)

theorem idxOfStr_some (c : String) (l : List String) (k : Nat)
    (h : idxOfStr c l = some k) : k < l.length ∧ l.getD k "" = c := by
  induction l generalizing k with
  | nil => simp [idxOfStr] at h
  | cons x t ih =>
    simp only [idxOfStr] at h
    by_cases hx : x = c
    · rw [if_pos hx] at h
      cases h
      simp [hx]
    · rw [if_neg hx] at h
      rw [Option.map_eq_some'] at h
      obtain ⟨k0, hk0, hke⟩ := h
      obtain ⟨h1, h2⟩ := ih k0 hk0
      subst hke
      refine ⟨by simpa using Nat.succ_lt_succ h1, by simpa using h2⟩

theorem getD_map_of_lt (l : List α) (f : α → β) (k : Nat) (hk : k < l.length)
    (d1 : β) (d2 : α) : (l.map f).getD k d1 = f (l.getD k d2) := by
  simp [List.getD, List.getElem?_map, List.getElem?_eq_getElem hk]

theorem getCol_keepCols (d : Df) (cs : List String) (c : String)
    (hc : c ∈ cs) (hd : c ∈ d.cols) :
    getCol (keepCols d cs) c = getCol d c := by
  have hcont : d.cols.contains c = true := by
    rw [List.contains_iff_exists_mem_beq]
    exact ⟨c, hd, by simp⟩
  have hsel : c ∈ cs.filter (fun x => d.cols.contains x) :=
    List.mem_filter.2 ⟨hc, hcont⟩
  obtain ⟨i, hi⟩ : ∃ i, idxOfStr c d.cols = some i := by
    cases hx : idxOfStr c d.cols with
    | none => exact absurd hd ((idxOfStr_eq_none_iff c d.cols).1 hx)
    | some i => exact ⟨i, rfl⟩
  obtain ⟨k, hk⟩ : ∃ k, idxOfStr c (cs.filter (fun x => d.cols.contains x)) = some k := by
    cases hx : idxOfStr c (cs.filter (fun x => d.cols.contains x)) with
    | none => exact absurd hsel ((idxOfStr_eq_none_iff c _).1 hx)
    | some k => exact ⟨k, rfl⟩
  obtain ⟨hklt, hkc⟩ := idxOfStr_some c _ k hk
  unfold getCol keepCols
  dsimp only
  rw [hk, hi]
  simp only [Option.map_some', Option.some.injEq, List.map_map]
  apply List.map_eq_map_iff.mpr
  intro row hrow
  simp only [Function.comp]
  have hstep := getD_map_of_lt (cs.filter (fun x => d.cols.contains x))
    (fun c => valAt d row c) k hklt .null ""
  rw [hkc] at hstep
  rw [hstep]
  unfold valAt
  rw [hi]

theorem idxOfStr_map_iff (l : List String) (f : String → String) (a b : String)
    (h : ∀ x ∈ l, (f x = a ↔ x = b)) :
    idxOfStr a (l.map f) = idxOfStr b l := by
  induction l with
  | nil => simp [idxOfStr]
  | cons x t ih =>
    simp only [List.map_cons, idxOfStr]
    have hx := h x (List.mem_cons_self x t)
    by_cases hb : x = b
    · rw [if_pos (hx.2 hb), if_pos hb]
    · rw [if_neg (fun hc => hb (hx.1 hc)), if_neg hb,
        ih (fun y hy => h y (List.mem_cons_of_mem x hy))]

theorem getCol_renameCols (d : Df) (mp : List (String × String)) (a b : String)
    (h : ∀ x ∈ d.cols, ((List.lookup x mp).getD x = a ↔ x = b)) :
    getCol (renameCols d mp) a = getCol d b := by
  unfold getCol renameCols
  dsimp only
  rw [idxOfStr_map_iff d.cols _ a b h]

/-- `IN_POSSESSION_RENAME_MAP` (`src/enrich_pop_file.py` lines 4-42). -/
def ipRenameMap : List (String × String) :=
  [("team_in_possession_id", "team_id"),
   ("team_in_possession_shortname", "team_name"),
   ("ip_score_start", "team_score_start"),
   ("oop_score_start", "opponent_score_start"),
   ("team_in_possession_phase_type", "phase_type"),
   ("team_in_possession_next_phase", "next_phase_type"),
   ("team_in_possession_width_start", "team_width_start"),
   ("team_in_possession_width_end", "team_width_end"),
   ("team_in_possession_length_start", "team_length_start"),
   ("team_in_possession_length_end", "team_length_end"),
   ("last_defensive_line_height_start_first_team_possession",
     "opponent_defensive_line_height_start"),
   ("last_defensive_line_height_end_last_team_possession",
     "opponent_defensive_line_height_end"),
   ("n_teammates_ahead_phase_start", "count_players_ahead_phase_start"),
   ("n_teammates_ahead_phase_end", "count_players_ahead_phase_end"),
   ("n_player_possessions_in_phase", "count_player_possessions"),
   ("n_passing_option", "count_passing_option"),
   ("n_cross_receiver", "count_cross_receiver"),
   ("n_behind", "count_behind"),
   ("n_coming_short", "count_coming_short"),
   ("n_dropping_off", "count_dropping_off"),
   ("n_overlap", "count_overlap"),
   ("n_pulling_half_space", "count_pulling_half_space"),
   ("n_pulling_wide", "count_pulling_wide"),
   ("n_run_ahead_of_the_ball", "count_run_ahead_of_the_ball"),
   ("n_support", "count_support"),
   ("n_underlap", "count_underlap")]

/-- `in_possession_cols` (`src/enrich_pop_file.py` lines 416-467), in
source order. -/
def inPossessionCols : List String :=
  ["match_id", "index", "team_in_possession_id", "team_in_possession_shortname",
   "frame_start", "frame_end", "time_start", "time_end", "minute_start",
   "second_start", "duration", "period", "ip_score_start", "oop_score_start",
   "team_in_possession_phase_type", "team_in_possession_next_phase",
   "team_possession_loss_in_phase", "team_possession_lead_to_shot",
   "team_possession_lead_to_goal", "channel_start", "third_start",
   "penalty_area_start", "channel_end", "third_end", "penalty_area_end",
   "team_in_possession_width_start", "team_in_possession_width_end",
   "team_in_possession_length_start", "team_in_possession_length_end",
   "last_defensive_line_height_start_first_team_possession",
   "last_defensive_line_height_end_last_team_possession",
   "n_teammates_ahead_phase_start", "n_teammates_ahead_phase_end",
   "n_player_possessions_in_phase", "n_passing_option", "n_cross_receiver",
   "n_behind", "n_coming_short", "n_dropping_off", "n_overlap",
   "n_pulling_half_space", "n_pulling_wide", "n_run_ahead_of_the_ball",
   "n_support", "n_underlap"]

/-- `out_of_possession_cols` before the `n_*` suffix list
(`src/enrich_pop_file.py` lines 475-501).  The source has a missing
comma after `"duration"`, so Python's implicit string concatenation
fuses it with the next literal into the single (nonexistent) column
name `"durationteam_out_of_possession_width_start"`; the embedding
reproduces that list faithfully. -/
def outOfPossessionColsBase : List String :=
  ["match_id", "index", "team_out_of_possession_id",
   "team_out_of_possession_shortname", "team_out_of_possession_phase_type",
   "team_out_of_possession_phase_type_id", "frame_start", "frame_end",
   "time_start", "time_end", "minute_start", "second_start", "period",
   "durationteam_out_of_possession_width_start",
   "team_out_of_possession_width_end", "team_out_of_possession_length_start",
   "team_out_of_possession_length_end",
   "last_defensive_line_height_start_first_team_possession",
   "last_defensive_line_height_end_last_team_possession",
   "n_opponents_ahead_phase_start", "n_opponents_ahead_phase_end"]

/-- The predicate `c.startswith("n_")` used to append the dynamic
count columns to `out_of_possession_cols`, modelled on the character
data of the name. -/
def isCountCol (c : String) : Bool :=
  match c.data with
  | 'n' :: '_' :: _ => true
  | _ => false

/-- `PhasesEnricherSplitter._split` (`src/enrich_pop_file.py`
lines 403-506): project the enriched table onto the two column lists,
renaming only the in-possession view with `IN_POSSESSION_RENAME_MAP`;
the out-of-possession view is a plain projection. -/
def splitPhases (d : Df) : Except String (Df × Df) :=
  if d.cols.contains "team_in_possession_id" &&
      d.cols.contains "team_out_of_possession_id" then
    .ok (renameCols (keepCols d inPossessionCols) ipRenameMap,
      keepCols d (outOfPossessionColsBase ++
        d.cols.filter (fun c => isCountCol c)))
  else
    .error "phases must include team_in_possession_id and team_out_of_possession_id to split."

/-- The `(match_id, index)` key pairs of a table, in row order. -/
def keyPairs (d : Df) : List (Val × Val) :=
  match getCol d "match_id", getCol d "index" with
  | some a, some b => a.zip b
  | _, _ => []

/-- Inner join of two key lists (`pd.merge` on the key columns): every
pair of equal keys contributes one output key. -/
def joinKeys (a b : List (Val × Val)) : List (Val × Val) :=
  a.flatMap (fun k => b.filter (fun k2 => decide (k2 = k)))

theorem filter_eq_singleton_of_nodup [DecidableEq α] (l : List α) (a : α)
    (hnd : l.Nodup) (ha : a ∈ l) :
    l.filter (fun x => decide (x = a)) = [a] := by
  induction l with
  | nil => simp at ha
  | cons x t ih =>
    obtain ⟨hx, ht⟩ := List.nodup_cons.1 hnd
    rcases List.mem_cons.1 ha with rfl | hat
    · have hz : t.filter (fun y => decide (y = a)) = [] := by
        rw [List.filter_eq_nil_iff]
        intro y hy hc
        rw [decide_eq_true_eq] at hc
        exact hx (hc ▸ hy)
      simp [List.filter_cons, hz]
    · have hxa : x ≠ a := fun he => hx (he ▸ hat)
      simp [List.filter_cons, hxa, ih ht hat]

theorem joinKeys_self_of_nodup (l : List (Val × Val)) (hnd : l.Nodup) :
    joinKeys l l = l := by
  unfold joinKeys
  have h1 : ∀ k ∈ l, l.filter (fun k2 => decide (k2 = k)) = [k] :=
    fun k hk => filter_eq_singleton_of_nodup l k hnd hk
  calc l.flatMap (fun k => l.filter (fun k2 => decide (k2 = k)))
      = l.flatMap (fun k => [k]) := by
        exact List.flatMap_congr h1
    _ = l := List.flatMap_singleton' l

/-- C9: for an enriched phase table with unique `(match_id, index)`
pairs, the in-possession and out-of-possession views produced by
`_split` both carry exactly the original key pairs, and inner-joining
the two views on `(match_id, index)` returns exactly the original key
pairs — no duplicate, no loss. -/
theorem C9_split_roundtrip (d : Df)
    (hm : "match_id" ∈ d.cols) (hx : "index" ∈ d.cols)
    (h1 : "team_in_possession_id" ∈ d.cols)
    (h2 : "team_out_of_possession_id" ∈ d.cols)
    (hnd : (keyPairs d).Nodup) :
    (splitPhases d).toOption.map
        (fun p => (keyPairs p.1, keyPairs p.2,
          joinKeys (keyPairs p.1) (keyPairs p.2)))
      = some (keyPairs d, keyPairs d, keyPairs d) := by
  have hguard : (d.cols.contains "team_in_possession_id" &&
      d.cols.contains "team_out_of_possession_id") = true := by
    rw [Bool.and_eq_true]
    exact ⟨List.elem_iff.2 h1, List.elem_iff.2 h2⟩
  unfold splitPhases
  rw [if_pos hguard]
  simp only [Except.toOption, Option.map_some', Option.some.injEq]
  have hrenm : ∀ x ∈ inPossessionCols,
      ((List.lookup x ipRenameMap).getD x = "match_id" ↔ x = "match_id") := by
    decide
  have hrenx : ∀ x ∈ inPossessionCols,
      ((List.lookup x ipRenameMap).getD x = "index" ↔ x = "index") := by
    decide
  have hipm : getCol (renameCols (keepCols d inPossessionCols) ipRenameMap)
      "match_id" = getCol d "match_id" := by
    rw [getCol_renameCols _ _ "match_id" "match_id"
      (fun x hxm => hrenm x (List.mem_of_mem_filter hxm))]
    exact getCol_keepCols d inPossessionCols "match_id" (by decide) hm
  have hipx : getCol (renameCols (keepCols d inPossessionCols) ipRenameMap)
      "index" = getCol d "index" := by
    rw [getCol_renameCols _ _ "index" "index"
      (fun x hxm => hrenx x (List.mem_of_mem_filter hxm))]
    exact getCol_keepCols d inPossessionCols "index" (by decide) hx
  have hoopm : getCol (keepCols d (outOfPossessionColsBase ++
      d.cols.filter (fun c => isCountCol c))) "match_id" =
      getCol d "match_id" :=
    getCol_keepCols d _ "match_id" (List.mem_append_left _ (by decide)) hm
  have hoopx : getCol (keepCols d (outOfPossessionColsBase ++
      d.cols.filter (fun c => isCountCol c))) "index" =
      getCol d "index" :=
    getCol_keepCols d _ "index" (List.mem_append_left _ (by decide)) hx
  have hkip : keyPairs (renameCols (keepCols d inPossessionCols) ipRenameMap)
      = keyPairs d := by
    unfold keyPairs
    rw [hipm, hipx]
  have hkoop : keyPairs (keepCols d (outOfPossessionColsBase ++
      d.cols.filter (fun c => isCountCol c))) = keyPairs d := by
    unfold keyPairs
    rw [hoopm, hoopx]
  rw [hkip, hkoop, joinKeys_self_of_nodup _ hnd]

/-- Input table for the C9 witness. -/
def c9Df : Df :=
  { cols := ["match_id", "index", "team_in_possession_id",
      "team_out_of_possession_id", "ip_score_start", "oop_score_start",
      "duration"],
    rows := [[.int 1, .int 0, .int 10, .int 20, .int 0, .int 0, .int 4],
             [.int 1, .int 1, .int 20, .int 10, .int 0, .int 0, .int 7]] }

/-- Witness for `C9_split_roundtrip` on `c9Df`. -/
theorem C9_witness :
    ("match_id" ∈ c9Df.cols) ∧ ("index" ∈ c9Df.cols) ∧
    ("team_in_possession_id" ∈ c9Df.cols) ∧
    ("team_out_of_possession_id" ∈ c9Df.cols) ∧
    ((keyPairs c9Df).Nodup) ∧
    ((splitPhases c9Df).toOption.map
        (fun p => (keyPairs p.1, keyPairs p.2,
          joinKeys (keyPairs p.1) (keyPairs p.2)))
      = some (keyPairs c9Df, keyPairs c9Df, keyPairs c9Df)) :=
  ⟨by decide, by decide, by decide, by decide, by decide,
   C9_split_roundtrip c9Df (by decide) (by decide) (by decide) (by decide)
     (by decide)⟩

/-- Input table for the C5 counterexample: an enriched phase table with
both score columns and the out-of-possession columns present. -/
def c5Df : Df :=
  { cols := ["match_id", "index", "team_in_possession_id",
      "team_in_possession_shortname", "team_out_of_possession_id",
      "team_out_of_possession_shortname", "team_out_of_possession_phase_type",
      "ip_score_start", "oop_score_start", "duration",
      "team_out_of_possession_width_start"],
    rows := [[.int 1, .int 0, .int 10, .str "a", .int 20, .str "b",
      .str "high_block", .int 2, .int 1, .int 40, .int 31]] }

/-- C5 is false as stated: the out-of-possession view produced by
`_split` carries NO team-centric renames (the raw
`team_out_of_possession_*` names survive, no `team_id`/`team_name`) and
NO score columns at all (no `team_score_start`/`opponent_score_start`);
moreover the missing comma in `out_of_possession_cols` silently drops
`duration` and `team_out_of_possession_width_start` from the view. -/
theorem C5_counterexample :
    (splitPhases c5Df).toOption.map (fun p => p.2.cols) =
      some ["match_id", "index", "team_out_of_possession_id",
        "team_out_of_possession_shortname", "team_out_of_possession_phase_type"] ∧
    (splitPhases c5Df).toOption.map (fun p =>
      (p.2.cols.contains "team_score_start",
       p.2.cols.contains "opponent_score_start",
       p.2.cols.contains "team_id",
       p.2.cols.contains "duration",
       p.2.cols.contains "team_out_of_possession_width_start")) =
      some (false, false, false, false, false) :=
  ⟨by decide, by decide⟩

/-- C5 (amended): `_split` applies the rename map — including the
score swap `ip_score_start ↦ team_score_start`,
`oop_score_start ↦ opponent_score_start` — to the IN-possession view
only; the out-of-possession view is a plain projection whose columns
all keep their source names, which never contains a renamed score
column, and which (because of the fused string literal
`"durationteam_out_of_possession_width_start"`) omits `duration` and
`team_out_of_possession_width_start`. -/
theorem C5_amended_split_views (d : Df)
    (h1 : "team_in_possession_id" ∈ d.cols)
    (h2 : "team_out_of_possession_id" ∈ d.cols)
    (hip : "ip_score_start" ∈ d.cols)
    (hoop : "oop_score_start" ∈ d.cols) :
    splitPhases d = .ok
      (renameCols (keepCols d inPossessionCols) ipRenameMap,
       keepCols d (outOfPossessionColsBase ++
         d.cols.filter (fun c => isCountCol c))) ∧
    getCol (renameCols (keepCols d inPossessionCols) ipRenameMap)
        "team_score_start" = getCol d "ip_score_start" ∧
    getCol (renameCols (keepCols d inPossessionCols) ipRenameMap)
        "opponent_score_start" = getCol d "oop_score_start" ∧
    (∀ c ∈ (keepCols d (outOfPossessionColsBase ++
      d.cols.filter (fun c => isCountCol c))).cols, c ∈ d.cols) ∧
    "duration" ∉ (keepCols d (outOfPossessionColsBase ++
      d.cols.filter (fun c => isCountCol c))).cols ∧
    "team_out_of_possession_width_start" ∉ (keepCols d (outOfPossessionColsBase ++
      d.cols.filter (fun c => isCountCol c))).cols ∧
    ("team_score_start" ∉ d.cols → "team_score_start" ∉
      (keepCols d (outOfPossessionColsBase ++
        d.cols.filter (fun c => isCountCol c))).cols) := by
  have hguard : (d.cols.contains "team_in_possession_id" &&
      d.cols.contains "team_out_of_possession_id") = true := by
    rw [Bool.and_eq_true]
    exact ⟨List.elem_iff.2 h1, List.elem_iff.2 h2⟩
  refine ⟨?_, ?_, ?_, ?_, ?_, ?_, ?_⟩
  · unfold splitPhases
    rw [if_pos hguard]
  · rw [getCol_renameCols _ _ "team_score_start" "ip_score_start"
      (fun x hxm => (by decide : ∀ x ∈ inPossessionCols,
        ((List.lookup x ipRenameMap).getD x = "team_score_start" ↔
          x = "ip_score_start")) x (List.mem_of_mem_filter hxm))]
    exact getCol_keepCols d inPossessionCols "ip_score_start" (by decide) hip
  · rw [getCol_renameCols _ _ "opponent_score_start" "oop_score_start"
      (fun x hxm => (by decide : ∀ x ∈ inPossessionCols,
        ((List.lookup x ipRenameMap).getD x = "opponent_score_start" ↔
          x = "oop_score_start")) x (List.mem_of_mem_filter hxm))]
    exact getCol_keepCols d inPossessionCols "oop_score_start" (by decide) hoop
  · intro c hc
    have := (List.mem_filter.1 hc).2
    exact List.elem_iff.1 this
  · intro hmem
    have hc := (List.mem_filter.1 hmem).1
    rcases List.mem_append.1 hc with hb | hf
    · exact absurd hb (by decide)
    · have := (List.mem_filter.1 hf).2
      exact absurd this (by decide)
  · intro hmem
    have hc := (List.mem_filter.1 hmem).1
    rcases List.mem_append.1 hc with hb | hf
    · exact absurd hb (by decide)
    · have := (List.mem_filter.1 hf).2
      exact absurd this (by decide)
  · intro hnot hmem
    have hc := (List.mem_filter.1 hmem).1
    rcases List.mem_append.1 hc with hb | hf
    · exact absurd hb (by decide)
    · exact hnot (List.mem_of_mem_filter hf)

/-- Input table for the C5 witness. -/
def c5wDf : Df :=
  { cols := ["match_id", "index", "team_in_possession_id",
      "team_out_of_possession_id", "ip_score_start", "oop_score_start",
      "duration", "n_behind"],
    rows := [[.int 1, .int 0, .int 10, .int 20, .int 2, .int 1, .int 40,
      .int 3]] }

/-- Witness for `C5_amended_split_views` on `c5wDf`. -/
theorem C5_witness :
    ("team_in_possession_id" ∈ c5wDf.cols) ∧
    ("team_out_of_possession_id" ∈ c5wDf.cols) ∧
    ("ip_score_start" ∈ c5wDf.cols) ∧
    ("oop_score_start" ∈ c5wDf.cols) ∧
    (splitPhases c5wDf = .ok
      (renameCols (keepCols c5wDf inPossessionCols) ipRenameMap,
       keepCols c5wDf (outOfPossessionColsBase ++
         c5wDf.cols.filter (fun c => isCountCol c))) ∧
    getCol (renameCols (keepCols c5wDf inPossessionCols) ipRenameMap)
        "team_score_start" = getCol c5wDf "ip_score_start" ∧
    getCol (renameCols (keepCols c5wDf inPossessionCols) ipRenameMap)
        "opponent_score_start" = getCol c5wDf "oop_score_start" ∧
    (∀ c ∈ (keepCols c5wDf (outOfPossessionColsBase ++
      c5wDf.cols.filter (fun c => isCountCol c))).cols, c ∈ c5wDf.cols) ∧
    "duration" ∉ (keepCols c5wDf (outOfPossessionColsBase ++
      c5wDf.cols.filter (fun c => isCountCol c))).cols ∧
    "team_out_of_possession_width_start" ∉ (keepCols c5wDf (outOfPossessionColsBase ++
      c5wDf.cols.filter (fun c => isCountCol c))).cols ∧
    ("team_score_start" ∉ c5wDf.cols → "team_score_start" ∉
      (keepCols c5wDf (outOfPossessionColsBase ++
        c5wDf.cols.filter (fun c => isCountCol c))).cols)) :=
  ⟨by decide, by decide, by decide, by decide,
   C5_amended_split_views c5wDf (by decide) (by decide) (by decide) (by decide)⟩
